import Mathlib

/-!
Verification of the theatrical room-turn engine (v3) of the chambr engine core.

The development shallowly embeds the TypeScript sources:
  - src/v3/events.ts   (event model: NDJSON event parsing, dedupe, budget caps)
  - src/v3/engine.ts   (turn orchestration: director plan, beats, budgets,
                        compaction, persistence)
  - src/v3/types.ts    (data model)

Conventions of the embedding:
  - JS strings are Lean strings; JS string length and slicing are modelled by
    character counts, which agrees with the source for the ASCII data the
    engine manipulates (JS uses UTF-16 units).
  - The platform builtin JSON.parse is modelled by a total, fuel-based
    recursive-descent parser over the JSON value type below.  The model is
    faithful on the JSON subset the engine produces and consumes: literals,
    integer numerals, strings with the common escapes, arrays, objects
    (duplicate keys resolve to the last occurrence, as in JS).  Fractional or
    exponent numerals and unicode escapes are rejected by the model.
  - JS Number coercion of strings, used by the lenient field sanitizers, is
    modelled by integer parsing of the string.
  - The generation backend, the wall clock, and the loaded state are oracles
    supplied as pure inputs; effects of the turn (the single saveState call)
    are returned as data.
-/

namespace ChambrV3

/-! ## String utilities (JS semantics) -/

/-- Whitespace recognized by the JS trim operation on the data in scope. -/
def isJsWs (c : Char) : Bool :=
  c = ' ' || c = '\t' || c = '\n' || c = '\r' || c = '\x0b' || c = '\x0c'

/-- Space or tab, the class collapsed by the first regex of compact. -/
def isSpaceTab (c : Char) : Bool := c = ' ' || c = '\t'

/-- Model of the regex replace of runs of spaces and tabs by a single space.
The boolean records whether the previous character belonged to a run. -/
def collapseSpacesAux : Bool → List Char → List Char
  | _, [] => []
  | prevRun, c :: rest =>
    if isSpaceTab c then
      if prevRun then collapseSpacesAux true rest
      else ' ' :: collapseSpacesAux true rest
    else c :: collapseSpacesAux false rest

/-- A run of k newlines as emitted by the second regex of compact: runs of
three or more newlines are replaced by exactly two. -/
def nlRun (k : Nat) : List Char := List.replicate (if 3 ≤ k then 2 else k) '\n'

/-- Model of the regex replace of newline runs; k counts pending newlines. -/
def collapseNlAux : Nat → List Char → List Char
  | k, [] => nlRun k
  | k, c :: rest =>
    if c = '\n' then collapseNlAux (k + 1) rest
    else nlRun k ++ (c :: collapseNlAux 0 rest)

/-- Both-ends whitespace trim on character lists. -/
def trimChars (l : List Char) : List Char :=
  ((l.dropWhile isJsWs).reverse.dropWhile isJsWs).reverse

/-- Model of the JS String.prototype.trim. -/
def jsTrim (s : String) : String := ⟨trimChars s.data⟩

/-- compact, from src/v3/engine.ts and src/v3/events.ts: collapse spaces and
tabs to one space, collapse runs of three or more newlines to two, trim. -/
def compact (s : String) : String :=
  ⟨trimChars (collapseNlAux 0 (collapseSpacesAux false s.data))⟩

/-- Model of the JS slice from zero: the first n characters. -/
def strTake (s : String) (n : Nat) : String := ⟨s.data.take n⟩

/-- Model of the JS toLowerCase on the ASCII range the engine data uses. -/
def charToLower (c : Char) : Char :=
  if 'A' ≤ c ∧ c ≤ 'Z' then Char.ofNat (c.toNat + 32) else c

def strToLower (s : String) : String := ⟨s.data.map charToLower⟩

/-- Split on the newline character, JS split semantics: the separator count
plus one pieces, empty pieces kept. -/
def splitCharsOnNl : List Char → List (List Char)
  | [] => [[]]
  | c :: rest =>
    if c = '\n' then [] :: splitCharsOnNl rest
    else
      match splitCharsOnNl rest with
      | [] => [[c]]
      | l :: ls => (c :: l) :: ls

def splitOnNl (s : String) : List String :=
  (splitCharsOnNl s.data).map (fun l => (⟨l⟩ : String))

/-- Decimal digit character. -/
def decDigitChar : Nat → Char
  | 0 => '0' | 1 => '1' | 2 => '2' | 3 => '3' | 4 => '4'
  | 5 => '5' | 6 => '6' | 7 => '7' | 8 => '8' | 9 => '9'
  | _ => '*'

/-- Decimal digits, most significant first; the fuel makes the recursion
structural (n + 1 always suffices). -/
def natDigitsAux : Nat → Nat → List Char
  | 0, _ => []
  | fuel + 1, n =>
    if n < 10 then [decDigitChar n]
    else natDigitsAux fuel (n / 10) ++ [decDigitChar (n % 10)]

/-- Decimal digits of a natural number, most significant first. -/
def natDigits (n : Nat) : List Char := natDigitsAux (n + 1) n

/-- Model of the JS number-to-string conversion used in template literals,
restricted to the natural counters the engine stringifies. -/
def natRepr (n : Nat) : String := ⟨natDigits n⟩

/-! ## JSON values and a model of JSON.parse -/

/-- JSON values.  Numbers carry integers: the engine only consumes integral
numerals, and the model of JSON.parse rejects fractional forms. -/
inductive Json where
  | null
  | bool (b : Bool)
  | num (n : Int)
  | str (s : String)
  | arr (elems : List Json)
  | obj (fields : List (String × Json))
  deriving Inhabited

/-- Whitespace inside JSON documents. -/
def isJsonWs (c : Char) : Bool := c = ' ' || c = '\t' || c = '\n' || c = '\r'

def isDigitChar (c : Char) : Bool := '0' ≤ c && c ≤ '9'

/-- Numeric value of a digit list, most significant first. -/
def digitsToNat (ds : List Char) : Nat :=
  ds.foldl (fun a c => a * 10 + (c.toNat - 48)) 0

/-- Model of the JS Number coercion of a string, on the integer numerals the
engine meets: surrounding whitespace ignored, the empty string is zero, an
optional sign and digits; anything else is NaN (none).  Fractional,
exponent, and radix-prefixed forms of JS are outside the model. -/
def jsNumberInt (s : String) : Option Int :=
  let cs := trimChars s.data
  if cs.isEmpty then some 0
  else
    let (neg, ds) := match cs with
      | '-' :: rest => (true, rest)
      | _ => (false, cs)
    if ds.isEmpty then none
    else if ds.all isDigitChar then
      some (if neg then -(Int.ofNat (digitsToNat ds)) else Int.ofNat (digitsToNat ds))
    else none

/-- String body after an opening quote: content characters and the remainder
after the closing quote.  The common escapes are supported; unicode escapes
are not (the engine never feeds them). -/
def parseStringBody : List Char → Option (List Char × List Char)
  | [] => none
  | c :: rest =>
    if c = '"' then some ([], rest)
    else if c = '\\' then
      match rest with
      | [] => none
      | e :: rest2 =>
        let dec : Option Char :=
          if e = '"' then some '"'
          else if e = '\\' then some '\\'
          else if e = '/' then some '/'
          else if e = 'n' then some '\n'
          else if e = 't' then some '\t'
          else if e = 'r' then some '\r'
          else if e = 'b' then some '\x08'
          else if e = 'f' then some '\x0c'
          else none
        match dec with
        | none => none
        | some d =>
          match parseStringBody rest2 with
          | none => none
          | some (content, rem) => some (d :: content, rem)
    else
      match parseStringBody rest with
      | none => none
      | some (content, rem) => some (c :: content, rem)

/-- Integer numeral: optional minus sign, digits, no leading zero, and no
fractional or exponent part (the latter is a restriction of the model). -/
def parseJsonNumber (cs : List Char) : Option (Json × List Char) :=
  let (neg, cs1) := match cs with
    | '-' :: rest => (true, rest)
    | _ => (false, cs)
  let digits := cs1.takeWhile isDigitChar
  let rest := cs1.dropWhile isDigitChar
  if digits.isEmpty then none
  else if 2 ≤ digits.length ∧ digits.headD ' ' = '0' then none
  else match rest with
    | '.' :: _ => none
    | 'e' :: _ => none
    | 'E' :: _ => none
    | _ =>
      let n : Int := Int.ofNat (digitsToNat digits)
      some (Json.num (if neg then -n else n), rest)

/-- Literal keyword at the head of the input. -/
def dropLit (lit : List Char) (cs : List Char) : Option (List Char) :=
  if cs.take lit.length = lit then some (cs.drop lit.length) else none

mutual

/-- JSON value at the head of the input; fuel makes recursion structural. -/
def parseJsonValue : Nat → List Char → Option (Json × List Char)
  | 0, _ => none
  | fuel + 1, cs =>
    let cs := cs.dropWhile isJsonWs
    match cs with
    | [] => none
    | c :: rest =>
      if c = '"' then
        match parseStringBody rest with
        | none => none
        | some (content, rem) => some (Json.str ⟨content⟩, rem)
      else if c = '[' then
        parseJsonElems fuel rest
      else if c = '\x7b' then
        parseJsonMembers fuel rest
      else if c = 'n' then
        (dropLit ['u', 'l', 'l'] rest).map (fun r => (Json.null, r))
      else if c = 't' then
        (dropLit ['r', 'u', 'e'] rest).map (fun r => (Json.bool true, r))
      else if c = 'f' then
        (dropLit ['a', 'l', 's', 'e'] rest).map (fun r => (Json.bool false, r))
      else if c = '-' || isDigitChar c then
        parseJsonNumber cs
      else none

/-- Array elements after the opening bracket: the empty-array case, else a
first element followed by the element tail. -/
def parseJsonElems : Nat → List Char → Option (Json × List Char)
  | 0, _ => none
  | fuel + 1, cs =>
    match cs.dropWhile isJsonWs with
    | ']' :: rest => some (Json.arr [], rest)
    | cs1 => (parseJsonElemsTail fuel cs1).map (fun (vs, rem) => (Json.arr vs, rem))

/-- One array element, then either a comma and more elements or the closing
bracket; trailing commas are refused as in JSON. -/
def parseJsonElemsTail : Nat → List Char → Option (List Json × List Char)
  | 0, _ => none
  | fuel + 1, cs =>
    match parseJsonValue fuel cs with
    | none => none
    | some (v, rem) =>
      match rem.dropWhile isJsonWs with
      | ',' :: rem2 =>
        (parseJsonElemsTail fuel rem2).map (fun (vs, rem3) => (v :: vs, rem3))
      | ']' :: rem2 => some ([v], rem2)
      | _ => none

/-- Object members after the opening brace: the empty-object case, else a
first member followed by the member tail. -/
def parseJsonMembers : Nat → List Char → Option (Json × List Char)
  | 0, _ => none
  | fuel + 1, cs =>
    match cs.dropWhile isJsonWs with
    | '\x7d' :: rest => some (Json.obj [], rest)
    | cs1 => (parseJsonMembersTail fuel cs1).map (fun (fs, rem) => (Json.obj fs, rem))

/-- One key-value member, then either a comma and more members or the closing
brace. -/
def parseJsonMembersTail : Nat → List Char → Option (List (String × Json) × List Char)
  | 0, _ => none
  | fuel + 1, cs =>
    match cs with
    | '"' :: rest =>
      match parseStringBody rest with
      | none => none
      | some (key, rem) =>
        match rem.dropWhile isJsonWs with
        | ':' :: rem2 =>
          match parseJsonValue fuel rem2 with
          | none => none
          | some (v, rem3) =>
            match rem3.dropWhile isJsonWs with
            | ',' :: rem4 =>
              match rem4.dropWhile isJsonWs with
              | '"' :: _ =>
                (parseJsonMembersTail fuel (rem4.dropWhile isJsonWs)).map
                  (fun (fs, rem5) => ((⟨key⟩, v) :: fs, rem5))
              | _ => none
            | '\x7d' :: rem4 => some ([(⟨key⟩, v)], rem4)
            | _ => none
        | _ => none
    | _ => none

end

/-- Model of JSON.parse: parse one value, demand only whitespace after it;
the semantics of a parse failure is the JS exception. -/
def jsonParse (s : String) : Option Json :=
  match parseJsonValue (2 * s.data.length + 2) s.data with
  | some (v, rest) => if (rest.dropWhile isJsonWs).isEmpty then some v else none
  | none => none

/-- Field access on a parsed record, as JS property lookup: objects resolve
a duplicate key to its last occurrence; any other value has no fields. -/
def Json.getField : Json → String → Option Json
  | Json.obj fields, key => ((fields.filter (fun p => p.1 = key)).getLast?).map (·.2)
  | _, _ => none

/-- The JS guard of the event line validator: a truthy value whose typeof is
object, which admits both objects and arrays. -/
def Json.isObjectLike : Json → Bool
  | Json.obj _ => true
  | Json.arr _ => true
  | _ => false

/-- The JS guard of parseMaybeJsonObject, which additionally excludes
arrays. -/
def Json.isPlainObject : Json → Bool
  | Json.obj _ => true
  | _ => false

/-! ## Event model (src/v3/types.ts, src/v3/events.ts) -/

def THEATRICAL_CONTRACT_VERSION : Nat := 1
def THEATRICAL_EVENT_SCHEMA_VERSION : Nat := 1

inductive EventType where
  | speak
  | action
  | thought
  deriving DecidableEq, Repr

/-- Visibility values; the source strings are public and private, reserved
words in Lean, hence the shortened constructor names. -/
inductive Visibility where
  | pub
  | priv
  deriving DecidableEq, Repr

inductive Origin where
  | roomie
  | director
  | repair
  deriving DecidableEq, Repr

def eventTypeName : EventType → String
  | .speak => "speak"
  | .action => "action"
  | .thought => "thought"

def visibilityName : Visibility → String
  | .pub => "public"
  | .priv => "private"

def originName : Origin → String
  | .roomie => "roomie"
  | .director => "director"
  | .repair => "repair"

structure TheatricalEvent where
  type : EventType
  author : String
  content : String
  eventId : String
  beatId : String
  schemaVersion : Int
  visibility : Visibility
  intensity : Int
  origin : Origin
  deriving DecidableEq, Repr

structure TheatricalBudget where
  maxDirectorAttempts : Nat
  maxActionEventsPerTurn : Nat
  maxThoughtEventsPerTurn : Nat
  maxThoughtCharsPerEvent : Nat
  targetP95TurnLatencyMs : Nat
  deriving DecidableEq, Repr

/-- clamp from src/v3/events.ts. -/
def clamp (value lo hi : Int) : Int := max lo (min hi value)

/-- toSafeInt from src/v3/events.ts, on a possibly absent JSON field value:
numbers pass through (the engine only meets integral ones), strings go
through Number coercion (modelled as integer parsing), anything else is not
finite and yields the fallback. -/
def toSafeInt (v : Option Json) (fallback : Int) : Int :=
  match v with
  | some (Json.num n) => n
  | some (Json.str s) =>
    match jsNumberInt s with
    | some n => n
    | none => fallback
  | _ => fallback

/-- sanitizeType from src/v3/events.ts. -/
def sanitizeType (v : Option Json) : Option EventType :=
  match v with
  | some (Json.str s) =>
    if s = "speak" then some .speak
    else if s = "action" then some .action
    else if s = "thought" then some .thought
    else none
  | _ => none

/-- sanitizeVisibility from src/v3/events.ts. -/
def sanitizeVisibility (v : Option Json) (fallback : Visibility) : Visibility :=
  match v with
  | some (Json.str s) =>
    if s = "public" then .pub
    else if s = "private" then .priv
    else fallback
  | _ => fallback

/-- sanitizeOrigin from src/v3/events.ts. -/
def sanitizeOrigin (v : Option Json) (fallback : Origin) : Origin :=
  match v with
  | some (Json.str s) =>
    if s = "roomie" then .roomie
    else if s = "director" then .director
    else if s = "repair" then .repair
    else fallback
  | _ => fallback

/-- createEventIdFactory from src/v3/events.ts: the factory closes over a
counter and yields idStem-counter after incrementing.  The model threads the
counter explicitly; the i-th generated id of a factory is createEventId
idStem i with i counted from 1. -/
def createEventId (idStem : String) (counter : Nat) : String :=
  idStem ++ "-" ++ natRepr counter

/-- buildFallbackSpeakEvent from src/v3/events.ts. -/
def buildFallbackSpeakEvent (author content beatId eventId : String)
    (origin : Option Origin) : TheatricalEvent :=
  { type := .speak
    author := author
    content := compact content
    eventId := eventId
    beatId := beatId
    schemaVersion := THEATRICAL_EVENT_SCHEMA_VERSION
    visibility := .pub
    intensity := 2
    origin := origin.getD .roomie }

/-- The author a validated line carries: its own author field trimmed when
non-blank, else the default author of the call. -/
def lineAuthor (defaultAuthor : String) (j : Json) : String :=
  let authorRaw := match j.getField "author" with
    | some (Json.str s) => jsTrim s
    | _ => ""
  if authorRaw ≠ "" then authorRaw else defaultAuthor

/-- The normalized content of a line. -/
def lineContent (j : Json) : String :=
  compact (match j.getField "content" with | some (Json.str s) => s | _ => "")

/-- The eventId of a validated line and the factory counter after it: the
supplied id trimmed when usable, else a freshly generated one. -/
def lineEventId (idStem : String) (counter : Nat) (j : Json) : String × Nat :=
  match j.getField "eventId" with
  | some (Json.str s) =>
    if jsTrim s ≠ "" then (jsTrim s, counter)
    else (createEventId idStem (counter + 1), counter + 1)
  | _ => (createEventId idStem (counter + 1), counter + 1)

/-- The beatId of a validated line: supplied and non-blank, else default. -/
def lineBeatId (defaultBeatId : String) (j : Json) : String :=
  match j.getField "beatId" with
  | some (Json.str s) => if jsTrim s ≠ "" then jsTrim s else defaultBeatId
  | _ => defaultBeatId

/-- One line of the NDJSON event stream validator (the loop body of
parseNdjsonTheatricalEvents).  The counter is the factory state; it advances
exactly when the line carries no usable eventId string. -/
def validateNdjsonLine (defaultAuthor defaultBeatId : String)
    (originHint : Option Origin) (idStem : String) (counter : Nat)
    (line : String) : Except String (TheatricalEvent × Nat) :=
  match jsonParse line with
  | none => .error "invalid-json-line"
  | some parsed =>
    if !parsed.isObjectLike then .error "invalid-object"
    else
      match sanitizeType (parsed.getField "type") with
      | none => .error "invalid-type"
      | some type =>
        if lineAuthor defaultAuthor parsed = "" then .error "missing-author"
        else if lineContent parsed = "" then .error "empty-content"
        else
          .ok ({ type := type
                 author := lineAuthor defaultAuthor parsed
                 content := lineContent parsed
                 eventId := (lineEventId idStem counter parsed).1
                 beatId := lineBeatId defaultBeatId parsed
                 schemaVersion := clamp (toSafeInt (parsed.getField "schemaVersion")
                   THEATRICAL_EVENT_SCHEMA_VERSION) 1 1000
                 visibility := sanitizeVisibility (parsed.getField "visibility")
                   (if type = .thought then .priv else .pub)
                 intensity := clamp (toSafeInt (parsed.getField "intensity")
                   (if type = .speak then 2 else 3)) 1 5
                 origin := sanitizeOrigin (parsed.getField "origin") (originHint.getD .roomie) },
               (lineEventId idStem counter parsed).2)

/-- A line the validator accepts whatever the counter: it parses to an
object-like value with a known type, an author that the default can
complete, and non-blank normalized content. -/
def lineWellFormed (defaultAuthor : String) (line : String) : Bool :=
  match jsonParse line with
  | none => false
  | some parsed =>
    parsed.isObjectLike &&
    (sanitizeType (parsed.getField "type")).isSome &&
    !(lineAuthor defaultAuthor parsed == "") &&
    !(lineContent parsed == "")

/-- The line list the validator iterates: trim the raw output, split on
newlines, trim each line, keep the non-empty ones. -/
def ndjsonLines (raw : String) : List String :=
  ((splitOnNl (jsTrim raw)).map jsTrim).filter (· ≠ "")

/-- The validator loop of parseNdjsonTheatricalEvents; one bad line fails the
whole batch with that line's reason. -/
def parseNdjsonLoop (defaultAuthor defaultBeatId : String)
    (originHint : Option Origin) (idStem : String) :
    List String → Nat → List TheatricalEvent →
    (Except String (List TheatricalEvent)) × Nat
  | [], counter, acc =>
    if acc.isEmpty then (.error "no-events", counter) else (.ok acc, counter)
  | line :: rest, counter, acc =>
    match validateNdjsonLine defaultAuthor defaultBeatId originHint idStem counter line with
    | .error r => (.error r, counter)
    | .ok (e, counter2) =>
      parseNdjsonLoop defaultAuthor defaultBeatId originHint idStem rest counter2 (acc ++ [e])

/-- parseNdjsonTheatricalEvents from src/v3/events.ts.  The nextEventId
closure argument of the source is modelled by the idStem and counter pair;
the returned counter is the factory state after the call (the factory state
advances even when a later line fails the batch). -/
def parseNdjsonTheatricalEvents (raw defaultAuthor defaultBeatId : String)
    (originHint : Option Origin) (idStem : String) (counter : Nat) :
    (Except String (List TheatricalEvent)) × Nat :=
  if jsTrim raw = "" then (.error "empty-output", counter)
  else
    let lines := ndjsonLines raw
    if lines.isEmpty then (.error "empty-lines", counter)
    else parseNdjsonLoop defaultAuthor defaultBeatId originHint idStem lines counter []

/-- The case-insensitive dedupe key of an action or thought event. -/
def dedupeKey (e : TheatricalEvent) : String :=
  strToLower e.author ++ "|" ++ eventTypeName e.type ++ "|" ++ strToLower e.content

/-- The fold of dedupeSimilarEvents; seen is the set of keys met so far. -/
def dedupeLoop (seen : List String) : List TheatricalEvent → List TheatricalEvent
  | [] => []
  | e :: rest =>
    if e.type = .speak then e :: dedupeLoop seen rest
    else if seen.contains (dedupeKey e) then dedupeLoop seen rest
    else e :: dedupeLoop (dedupeKey e :: seen) rest

/-- dedupeSimilarEvents from src/v3/events.ts: drop exact duplicate action
and thought events by the case-insensitive author-type-content key; speak
events always pass. -/
def dedupeSimilarEvents (events : List TheatricalEvent) : List TheatricalEvent :=
  dedupeLoop [] events

/-- The capping fold of applyBudgetCaps; the counts are the action and
thought events already admitted. -/
def applyBudgetCapsLoop (budget : TheatricalBudget) :
    List TheatricalEvent → Nat → Nat → List TheatricalEvent
  | [], _, _ => []
  | e :: rest, actionCount, thoughtCount =>
    match e.type with
    | .action =>
      if actionCount ≥ max 0 budget.maxActionEventsPerTurn then
        applyBudgetCapsLoop budget rest actionCount thoughtCount
      else e :: applyBudgetCapsLoop budget rest (actionCount + 1) thoughtCount
    | .thought =>
      if thoughtCount ≥ max 0 budget.maxThoughtEventsPerTurn then
        applyBudgetCapsLoop budget rest actionCount thoughtCount
      else
        let maxChars := max 1 budget.maxThoughtCharsPerEvent
        let clipped :=
          if e.content.length > maxChars then jsTrim (strTake e.content maxChars)
          else e.content
        if clipped = "" then applyBudgetCapsLoop budget rest actionCount (thoughtCount + 1)
        else { e with content := clipped } ::
          applyBudgetCapsLoop budget rest actionCount (thoughtCount + 1)
    | .speak => e :: applyBudgetCapsLoop budget rest actionCount thoughtCount

/-- applyBudgetCaps from src/v3/events.ts: dedupe, then cap action and
thought counts and truncate over-long thought content, dropping a thought
that truncation empties (the dropped thought still consumes its slot, as in
the source, where the count is bumped before the clip). -/
def applyBudgetCaps (events : List TheatricalEvent) (budget : TheatricalBudget) :
    List TheatricalEvent :=
  applyBudgetCapsLoop budget (dedupeSimilarEvents events) 0 0

/-- eventsForPublicHistory from src/v3/events.ts. -/
def eventsForPublicHistory (events : List TheatricalEvent) : List TheatricalEvent :=
  events.filter (fun e => e.type ≠ .thought || e.visibility = .pub)

/-- eventsForAgentPrivateMemory from src/v3/events.ts. -/
def eventsForAgentPrivateMemory (events : List TheatricalEvent) : List TheatricalEvent :=
  events.filter (fun e => e.type = .thought)

/-- eventsForSummarizer from src/v3/events.ts. -/
def eventsForSummarizer (events : List TheatricalEvent) : List TheatricalEvent :=
  events.filter (fun e =>
    match e.type with
    | .speak => true
    | .action => e.intensity ≥ 2
    | .thought => e.visibility = .pub && e.content.length ≥ 24)

/-- eventToHistoryLine from src/v3/events.ts. -/
def eventToHistoryLine (e : TheatricalEvent) : String :=
  match e.type with
  | .speak => e.author ++ ": " ++ e.content
  | .action => e.author ++ " (action): " ++ e.content
  | .thought => e.author ++ " (thought): " ++ e.content

/-- Decimal rendering of the integer fields for serialization. -/
def intRepr (n : Int) : String :=
  if n < 0 then "-" ++ natRepr n.natAbs else natRepr n.toNat

/-- JSON string escaping as performed by JSON.stringify on the common
characters; other control characters do not occur in the engine data. -/
def jsonEscape (s : String) : String :=
  ⟨s.data.foldr (fun c acc =>
    if c = '"' then '\\' :: '"' :: acc
    else if c = '\\' then '\\' :: '\\' :: acc
    else if c = '\n' then '\\' :: 'n' :: acc
    else if c = '\t' then '\\' :: 't' :: acc
    else if c = '\r' then '\\' :: 'r' :: acc
    else c :: acc) []⟩

def quoteJson (s : String) : String := "\"" ++ jsonEscape s ++ "\""

/-- serializeTheatricalEvent from src/v3/events.ts: JSON.stringify of the
event record, fields in declaration order. -/
def serializeTheatricalEvent (e : TheatricalEvent) : String :=
  "\x7b" ++ quoteJson "type" ++ ":" ++ quoteJson (eventTypeName e.type) ++
  "," ++ quoteJson "author" ++ ":" ++ quoteJson e.author ++
  "," ++ quoteJson "content" ++ ":" ++ quoteJson e.content ++
  "," ++ quoteJson "eventId" ++ ":" ++ quoteJson e.eventId ++
  "," ++ quoteJson "beatId" ++ ":" ++ quoteJson e.beatId ++
  "," ++ quoteJson "schemaVersion" ++ ":" ++ intRepr e.schemaVersion ++
  "," ++ quoteJson "visibility" ++ ":" ++ quoteJson (visibilityName e.visibility) ++
  "," ++ quoteJson "intensity" ++ ":" ++ intRepr e.intensity ++
  "," ++ quoteJson "origin" ++ ":" ++ quoteJson (originName e.origin) ++
  "\x7d"

/-- toNdjson from src/v3/events.ts. -/
def toNdjson (events : List TheatricalEvent) : String :=
  String.intercalate "\n" (events.map serializeTheatricalEvent)

/-! ## Shared state data model (src/types.ts) -/

inductive MsgRole where
  | user
  | agent
  deriving DecidableEq, Repr

structure SharedMessage where
  role : MsgRole
  agent_id : Option String
  text : String
  turn_index : Nat
  deriving DecidableEq, Repr

structure SharedState where
  goal : String
  summary_window : String
  last_messages : List SharedMessage
  agent_memory : List (String × List String)
  turn_index : Nat
  deriving DecidableEq, Repr

structure SpeakerStep where
  agent_id : String
  intent : String
  deriving DecidableEq, Repr

structure SpeakerOutput where
  agent_id : String
  intent : String
  text : String
  step_index : Nat
  deriving DecidableEq, Repr

structure DirectorBeat where
  beatId : String
  agentId : String
  intent : String
  allowAction : Bool
  allowThought : Bool
  toneHint : String
  maxEvents : Nat
  deriving DecidableEq, Repr

inductive PlanSource where
  | model
  | repair
  | fallback
  deriving DecidableEq, Repr

structure PlanTrace where
  source : PlanSource
  attempts : Nat
  reason : Option String
  deriving DecidableEq, Repr

structure DirectorPlan where
  contractVersion : Nat
  schemaVersion : Nat
  turnIndex : Nat
  presetId : String
  budgets : TheatricalBudget
  beats : List DirectorBeat
  trace : PlanTrace
  deriving DecidableEq, Repr

structure RuntimeState where
  turn_index : Nat
  speaker_plan : List SpeakerStep
  speaker_outputs : List SpeakerOutput
  last_user_message : Option String
  turn_trace : List String
  director_plan_history : List DirectorPlan
  theatrical_contract_version : Option Nat
  deriving DecidableEq, Repr

structure RoomState where
  shared : SharedState
  runtime : RuntimeState
  deriving DecidableEq, Repr

structure Roomie where
  id : String
  name : String
  bio : String
  traits : Option String
  deriving DecidableEq, Repr

/-! ## Turn input, dependencies and result (src/v3/types.ts)

The dependency record models the effectful collaborators as oracles:
generateText is indexed by the number of generation calls already issued in
the turn (an error value is the JS exception), elapsedMs gives the wall-clock
time elapsed since turn start at the n-th latency-guard consult, loadedState
is the state the store returns at turn start.  Prompt building is pure
string templating consumed only by the oracle and is not modelled; the
optional onBeatStart and onEvent callbacks, the tracing span, the logger and
withTrace wrapper, and the optional model-assignment save are effect-only
collaborators with no bearing on the turn state, and are likewise omitted
from the model. -/

structure RoomEngineDeps where
  loadedState : RoomState
  generateText : Nat → Except String String
  elapsedMs : Nat → Nat
  modelAssignment : Option (List (String × String))

structure RoomTurnInput where
  chamberId : String
  userId : String
  userName : String
  userTier : String
  userMessage : String
  chamberGoal : Option String
  roomies : List Roomie
  defaultAgentModel : String
  directorModel : String
  summarizerModel : Option String
  budget : TheatricalBudget
  presetId : String
  presetPrompt : String
  maxAgents : Option Nat
  compactEveryChars : Option Nat
  compactKeepMessages : Option Nat

structure RoomTurnResult where
  outputText : String
  events : List TheatricalEvent
  directorPlan : DirectorPlan
  state : RoomState
  deriving DecidableEq, Repr

/-- Per-turn oracle positions: generation calls issued and latency-guard
consults made. -/
structure TurnCtx where
  genCount : Nat
  timeCount : Nat
  deriving DecidableEq, Repr

/-! ## Engine helpers (src/v3/engine.ts) -/

/-- Association list with JS object semantics: set replaces in place or
appends, get finds the (unique) binding. -/
def assocGet {α : Type} (l : List (String × α)) (k : String) : Option α :=
  (l.find? (fun p => p.1 = k)).map (·.2)

def assocSet {α : Type} (l : List (String × α)) (k : String) (v : α) :
    List (String × α) :=
  if l.any (fun p => p.1 = k) then l.map (fun p => if p.1 = k then (k, v) else p)
  else l ++ [(k, v)]

/-- The slice from the end used for bounded histories; only called with a
positive count. -/
def takeRight {α : Type} (n : Nat) (l : List α) : List α := l.drop (l.length - n)

/-- normalizeName from src/v3/engine.ts. -/
def normalizeName (value : Option String) (fallback : String) : String :=
  match value with
  | some v => if jsTrim v ≠ "" then jsTrim v else fallback
  | none => fallback

/-- estimateSharedChars from src/v3/engine.ts. -/
def estimateSharedChars (shared : SharedState) : Nat :=
  shared.goal.length + shared.summary_window.length +
    (shared.last_messages.map (fun m => m.text.length)).sum

/-- trimMessages from src/v3/engine.ts. -/
def trimMessages (messages : List SharedMessage) (keepCount : Nat) :
    List SharedMessage :=
  if keepCount = 0 then []
  else if messages.length ≤ keepCount then messages
  else takeRight keepCount messages

/-- The brace-extraction fallback of parseMaybeJsonObject: the substring
between the first opening and the last closing brace, parsed and required to
be a plain object. -/
def extractBracedObject (trimmed : String) : Option Json :=
  let cs := trimmed.data
  match cs.findIdx? (fun c => c = '\x7b') with
  | none => none
  | some start =>
    match cs.reverse.findIdx? (fun c => c = '\x7d') with
    | none => none
    | some revIdx =>
      let stop := cs.length - 1 - revIdx
      if stop ≤ start then none
      else
        match jsonParse ⟨(cs.drop start).take (stop + 1 - start)⟩ with
        | some j => if j.isPlainObject then some j else none
        | none => none

/-- parseMaybeJsonObject from src/v3/engine.ts: whole-string parse first,
requiring a non-array object, then the brace-extraction fallback. -/
def parseMaybeJsonObject (raw : String) : Option Json :=
  let trimmed := jsTrim raw
  if trimmed = "" then none
  else
    match jsonParse trimmed with
    | some j => if j.isPlainObject then some j else extractBracedObject trimmed
    | none => extractBracedObject trimmed

/-- toPositiveInt from src/v3/engine.ts. -/
def toPositiveInt (v : Option Json) (fallback lo hi : Nat) : Nat :=
  match v with
  | some (Json.num n) => (clamp n lo hi).toNat
  | some (Json.str s) =>
    match jsNumberInt s with
    | some n => (clamp n lo hi).toNat
    | none => fallback
  | _ => fallback

/-- toBool from src/v3/engine.ts. -/
def toBool (v : Option Json) (fallback : Bool) : Bool :=
  match v with
  | some (Json.bool b) => b
  | some (Json.str s) =>
    if strToLower s = "true" then true
    else if strToLower s = "false" then false
    else fallback
  | _ => fallback

/-- toShortText from src/v3/engine.ts. -/
def toShortText (v : Option Json) (fallback : String) (maxLen : Nat) : String :=
  match v with
  | some (Json.str s) =>
    let next := compact s
    if next = "" then fallback else strTake next maxLen
  | _ => fallback

/-- The beatId scheme of the director plan: turn then ordinal position. -/
def mkBeatId (turnIndex ordinal : Nat) : String :=
  "b" ++ natRepr (turnIndex + 1) ++ "-" ++ natRepr ordinal

/-- buildFallbackPlan from src/v3/engine.ts: one generic beat per active
roomie, both permissions denied, fallback trace with the failure reason. -/
def buildFallbackPlan (activeRoomies : List Roomie) (turnIndex : Nat)
    (presetId reason : String) (maxEventsPerBeat : Nat)
    (budget : TheatricalBudget) : DirectorPlan :=
  { contractVersion := THEATRICAL_CONTRACT_VERSION
    schemaVersion := THEATRICAL_EVENT_SCHEMA_VERSION
    turnIndex := turnIndex
    presetId := presetId
    budgets := budget
    beats := activeRoomies.enum.map (fun p =>
      { beatId := mkBeatId turnIndex (p.1 + 1)
        agentId := p.2.id
        intent := "respond-helpfully"
        allowAction := false
        allowThought := false
        toneHint := "balanced"
        maxEvents := maxEventsPerBeat })
    trace := { source := .fallback, attempts := 0, reason := some reason } }

/-- The beat-collection loop of parseDirectorPlanSchema.  Entries that are
not objects, reference an unknown or duplicate roomie, or lack an agent_id
string are skipped (for a non-object entry the agent_id lookup yields the
empty string, which the source skips the same way); after a push the loop
stops once one beat per active roomie has been collected. -/
def parseDirectorBeats (activeRoomies : List Roomie) (turnIndex maxEventsPerBeat : Nat)
    (acc : List DirectorBeat) : List Json → List DirectorBeat
  | [] => acc
  | entry :: rest =>
    let agentId := match entry.getField "agent_id" with
      | some (Json.str s) => jsTrim s
      | _ => ""
    if agentId = "" || !(activeRoomies.any (fun r => r.id = agentId)) then
      parseDirectorBeats activeRoomies turnIndex maxEventsPerBeat acc rest
    else if acc.any (fun b => b.agentId = agentId) then
      parseDirectorBeats activeRoomies turnIndex maxEventsPerBeat acc rest
    else
      let beat : DirectorBeat :=
        { beatId := mkBeatId turnIndex (acc.length + 1)
          agentId := agentId
          intent := toShortText (entry.getField "intent") "respond-helpfully" 140
          allowAction := toBool (entry.getField "allow_action") false
          allowThought := toBool (entry.getField "allow_thought") false
          toneHint := toShortText (entry.getField "tone_hint") "balanced" 120
          maxEvents := toPositiveInt (entry.getField "max_events") maxEventsPerBeat 1 4 }
      let acc2 := acc ++ [beat]
      if acc2.length ≥ activeRoomies.length then acc2
      else parseDirectorBeats activeRoomies turnIndex maxEventsPerBeat acc2 rest

/-- parseDirectorPlanSchema from src/v3/engine.ts. -/
def parseDirectorPlanSchema (raw : String) (activeRoomies : List Roomie)
    (turnIndex : Nat) (presetId : String) (budget : TheatricalBudget)
    (maxEventsPerBeat : Nat) : Except String DirectorPlan :=
  match parseMaybeJsonObject raw with
  | none => .error "director-invalid-json"
  | some parsed =>
    match parsed.getField "beats" with
    | some (Json.arr beatsRaw) =>
      if beatsRaw.isEmpty then .error "director-missing-beats"
      else
        let beats := parseDirectorBeats activeRoomies turnIndex maxEventsPerBeat [] beatsRaw
        if beats.isEmpty then .error "director-no-valid-beats"
        else .ok
          { contractVersion := THEATRICAL_CONTRACT_VERSION
            schemaVersion := THEATRICAL_EVENT_SCHEMA_VERSION
            turnIndex := turnIndex
            presetId := presetId
            budgets := budget
            beats := beats
            trace := { source := .model, attempts := 1, reason := none } }
    | _ => .error "director-missing-beats"

/-- extractFallbackText from src/v3/engine.ts: the first non-empty line of
the compacted raw output, truncated to 360 characters; a fixed utterance
when the output is blank. -/
def extractFallbackText (raw : String) : String :=
  let trimmed := compact raw
  if trimmed = "" then "I am here."
  else
    let lines := (((splitOnNl trimmed).map jsTrim).filter (· ≠ ""))
    let line := match lines.head? with
      | some l => l
      | none => trimmed
    strTake line 360

/-- buildSpeakerOutputs from src/v3/engine.ts.  The beat metadata map keyed
by beatId resolves duplicates to the last insertion, as a JS Map does. -/
def buildSpeakerOutputs (events : List TheatricalEvent)
    (beats : List DirectorBeat) : List SpeakerOutput :=
  (events.filter (fun e => e.type = .speak)).map (fun e =>
    match ((beats.enum.filter (fun p => p.2.beatId = e.beatId)).getLast?) with
    | some p =>
      { agent_id := if p.2.agentId = "" then e.beatId else p.2.agentId
        intent := "respond"
        text := e.content
        step_index := p.1 }
    | none => { agent_id := e.beatId, intent := "respond", text := e.content, step_index := 0 })

/-- cloneAgentMemory from src/v3/engine.ts; in the typed model the filter of
non-string notes is the identity copy. -/
def cloneAgentMemory (m : List (String × List String)) : List (String × List String) := m

/-- resolveRoomieModels from src/v3/engine.ts: assignment entries with a
non-blank model, then the default model for every roomie without one (or
with a falsy one).  The save of the resulting assignment is an external
effect with no bearing on the turn and is not modelled. -/
def resolveRoomieModels (deps : RoomEngineDeps) (input : RoomTurnInput) :
    List (String × String) :=
  let base := match deps.modelAssignment with
    | some entries => entries.foldl (fun acc p =>
        if jsTrim p.2 ≠ "" then assocSet acc p.1 (jsTrim p.2) else acc) []
    | none => []
  input.roomies.foldl (fun acc roomie =>
    match assocGet acc roomie.id with
    | some v => if v = "" then assocSet acc roomie.id input.defaultAgentModel else acc
    | none => assocSet acc roomie.id input.defaultAgentModel) base

/-- The roomiesById lookup: a JS Map built by insertion resolves duplicate
ids to the last one. -/
def roomieLookup (roomies : List Roomie) (agentId : String) : Option Roomie :=
  (roomies.filter (fun r => r.id = agentId)).getLast?

/-- The n-th generation call: consume the oracle, an error being the thrown
exception of the backend. -/
def callGenerate (deps : RoomEngineDeps) (ctx : TurnCtx) :
    Except String (String × TurnCtx) :=
  match deps.generateText ctx.genCount with
  | .error e => .error e
  | .ok raw => .ok (raw, { ctx with genCount := ctx.genCount + 1 })

/-- retryAllowed from src/v3/engine.ts: with no latency target every retry
is allowed; otherwise the elapsed time must be under eighty percent of the
target (the float factor of the source is exact on the integers in scope). -/
def retryAllowed (deps : RoomEngineDeps) (input : RoomTurnInput)
    (ctx : TurnCtx) : Bool × TurnCtx :=
  let target := max 0 input.budget.targetP95TurnLatencyMs
  let ctx2 := { ctx with timeCount := ctx.timeCount + 1 }
  if target = 0 then (true, ctx2)
  else (decide (deps.elapsedMs ctx.timeCount < target * 4 / 5), ctx2)

/-! ## Director plan acquisition (src/v3/engine.ts lines 354 to 465) -/

/-- The director phase: one generation call, schema validation, at most one
latency-guarded repair attempt, and the fallback plan when no plan is
obtained.  Mirrors the retry wiring of the source: the latency guard is only
consulted when the budget permits more than one attempt. -/
def acquireDirectorPlan (deps : RoomEngineDeps) (input : RoomTurnInput)
    (activeRoomies : List Roomie) (turnIndex : Nat) (ctx : TurnCtx) :
    Except String (DirectorPlan × TurnCtx) :=
  match callGenerate deps ctx with
  | .error e => .error e
  | .ok (raw1, ctx1) =>
    let maxDirectorAttempts :=
      max 1 (min 3 (if input.budget.maxDirectorAttempts = 0 then 1
                    else input.budget.maxDirectorAttempts))
    let parsed1 := parseDirectorPlanSchema raw1 activeRoomies turnIndex
      input.presetId input.budget 2
    let guarded :=
      if maxDirectorAttempts > 1 then retryAllowed deps input ctx1 else (false, ctx1)
    match parsed1 with
    | .ok plan => .ok ({ plan with trace := { plan.trace with attempts := 1 } }, guarded.2)
    | .error reason1 =>
      if guarded.1 then
        match callGenerate deps guarded.2 with
        | .error e => .error e
        | .ok (raw2, ctx3) =>
          match parseDirectorPlanSchema raw2 activeRoomies turnIndex
            input.presetId input.budget 2 with
          | .ok plan2 =>
            .ok ({ plan2 with trace := { source := .repair, attempts := 2, reason := none } }, ctx3)
          | .error reason2 =>
            .ok (buildFallbackPlan activeRoomies turnIndex input.presetId reason2 1 input.budget, ctx3)
      else
        .ok (buildFallbackPlan activeRoomies turnIndex input.presetId reason1 1 input.budget, guarded.2)

/-! ## Beat execution (src/v3/engine.ts lines 467 to 627) -/

/-- The turn-scoped accumulator of accepted events: the event list, the
turn-wide dedupe key set, and the action and thought counts. -/
structure EmitState where
  allEvents : List TheatricalEvent
  dedupeKeys : List String
  actionUsed : Nat
  thoughtUsed : Nat
  deriving DecidableEq, Repr

/-- emitEventIfAllowed from src/v3/engine.ts: turn-level caps, turn-level
dedupe, thought truncation; a thought emptied by truncation is dropped but
still consumes its slot and key. -/
def emitEventIfAllowed (budget : TheatricalBudget) (st : EmitState)
    (event : TheatricalEvent) : EmitState :=
  match event.type with
  | .action =>
    if st.actionUsed ≥ max 0 budget.maxActionEventsPerTurn then st
    else
      let key := dedupeKey event
      if st.dedupeKeys.contains key then st
      else
        { st with
          allEvents := st.allEvents ++ [event]
          dedupeKeys := key :: st.dedupeKeys
          actionUsed := st.actionUsed + 1 }
  | .thought =>
    if st.thoughtUsed ≥ max 0 budget.maxThoughtEventsPerTurn then st
    else
      let key := dedupeKey event
      if st.dedupeKeys.contains key then st
      else
        let maxChars := max 1 budget.maxThoughtCharsPerEvent
        let event2 :=
          if event.content.length > maxChars then
            { event with content := jsTrim (strTake event.content maxChars) }
          else event
        if event2.content = "" then
          { st with dedupeKeys := key :: st.dedupeKeys, thoughtUsed := st.thoughtUsed + 1 }
        else
          { st with
            allEvents := st.allEvents ++ [event2]
            dedupeKeys := key :: st.dedupeKeys
            thoughtUsed := st.thoughtUsed + 1 }
  | .speak => { st with allEvents := st.allEvents ++ [event] }

/-- The acceptance filter of one beat (src/v3/engine.ts lines 590 to 602):
drop disallowed action and thought events, stamp the roomie name and beatId
onto each accepted event, stop once maxEvents are accepted.  count is the
number already accepted. -/
def acceptBeatEvents (roomieName beatIdStr : String)
    (allowAction allowThought : Bool) (maxEvents count : Nat) :
    List TheatricalEvent → List TheatricalEvent
  | [] => []
  | e :: rest =>
    if e.type = .action && !allowAction then
      acceptBeatEvents roomieName beatIdStr allowAction allowThought maxEvents count rest
    else if e.type = .thought && !allowThought then
      acceptBeatEvents roomieName beatIdStr allowAction allowThought maxEvents count rest
    else
      let e2 := { e with author := roomieName, beatId := beatIdStr }
      if count + 1 ≥ maxEvents then [e2]
      else e2 :: acceptBeatEvents roomieName beatIdStr allowAction allowThought maxEvents (count + 1) rest

/-- The permission-filtered, truncated acceptance of a beat's parse outcome:
empty when parsing failed. -/
def beatParsedAccepted (roomie : Roomie) (beat : DirectorBeat)
    (parsed : Except String (List TheatricalEvent)) : List TheatricalEvent :=
  match parsed with
  | .ok evs =>
    acceptBeatEvents roomie.name beat.beatId beat.allowAction beat.allowThought
      beat.maxEvents 0 evs
  | .error _ => []

/-- The origin of the synthesized fallback speak event: roomie when parsing
had succeeded, repair when it had failed. -/
def beatFallbackOrigin (parsed : Except String (List TheatricalEvent)) : Origin :=
  match parsed with
  | .ok _ => .roomie
  | .error _ => .repair

/-- The final accepted list of one beat (src/v3/engine.ts lines 590 to 616):
the permission-filtered, truncated parse output when it contains a speak
event, else the single synthesized fallback speak event built from the raw
output.  Returns the accepted list and the advanced factory counter. -/
def beatAccepted (roomie : Roomie) (beat : DirectorBeat)
    (parsed : Except String (List TheatricalEvent)) (speakerRaw idStem : String)
    (counter : Nat) : List TheatricalEvent × Nat :=
  let accepted := beatParsedAccepted roomie beat parsed
  if accepted.isEmpty || !(accepted.any (fun e => e.type = EventType.speak)) then
    ([buildFallbackSpeakEvent roomie.name (extractFallbackText speakerRaw)
        beat.beatId (createEventId idStem (counter + 1))
        (some (beatFallbackOrigin parsed))],
     counter + 1)
  else (accepted, counter)

/-- One beat of the loop: speaker generation, parse, one latency-guarded
repair generation on a parse failure, then acceptance.  The latency guard is
consulted every beat, as in the source. -/
def runBeat (deps : RoomEngineDeps) (input : RoomTurnInput) (roomie : Roomie)
    (beat : DirectorBeat) (idStem : String) (counter : Nat) (ctx : TurnCtx) :
    Except String (List TheatricalEvent × Nat × TurnCtx) :=
  match callGenerate deps ctx with
  | .error e => .error e
  | .ok (raw1, ctx1) =>
    let p1 := parseNdjsonTheatricalEvents raw1 roomie.name beat.beatId
      (some .roomie) idStem counter
    let guarded := retryAllowed deps input ctx1
    match p1.1 with
    | .ok evs =>
      let acc := beatAccepted roomie beat (.ok evs) raw1 idStem p1.2
      .ok (acc.1, acc.2, guarded.2)
    | .error reason1 =>
      if guarded.1 then
        match callGenerate deps guarded.2 with
        | .error e => .error e
        | .ok (raw2, ctx3) =>
          let p2 := parseNdjsonTheatricalEvents raw2 roomie.name beat.beatId
            (some .repair) idStem p1.2
          let acc := beatAccepted roomie beat p2.1 raw2 idStem p2.2
          .ok (acc.1, acc.2, ctx3)
      else
        let acc := beatAccepted roomie beat (.error reason1) raw1 idStem p1.2
        .ok (acc.1, acc.2, guarded.2)

/-- The state threaded through the beat loop: the emit accumulator, the
working copy of the per-roomie private memory, the event id factory state,
and the oracle positions. -/
structure BeatLoopSt where
  emit : EmitState
  memory : List (String × List String)
  counter : Nat
  ctx : TurnCtx

/-- The beat loop of the turn: for each beat whose roomie exists, run the
beat, emit each accepted event through the turn-level budget, and append the
accepted thoughts to the roomie's private memory capped at the most recent
twelve notes. -/
def runBeatsLoop (deps : RoomEngineDeps) (input : RoomTurnInput)
    (idStem : String) : List DirectorBeat → BeatLoopSt → Except String BeatLoopSt
  | [], st => .ok st
  | beat :: rest, st =>
    match roomieLookup input.roomies beat.agentId with
    | none => runBeatsLoop deps input idStem rest st
    | some roomie =>
      match runBeat deps input roomie beat idStem st.counter st.ctx with
      | .error e => .error e
      | .ok (accepted, counter2, ctx2) =>
        let emit2 := accepted.foldl (emitEventIfAllowed input.budget) st.emit
        let privateThoughts := (eventsForAgentPrivateMemory accepted).map (fun e => e.content)
        let memory2 :=
          if privateThoughts.isEmpty then st.memory
          else
            let existing := (assocGet st.memory roomie.id).getD []
            assocSet st.memory roomie.id (takeRight 12 (existing ++ privateThoughts))
        runBeatsLoop deps input idStem rest
          { emit := emit2, memory := memory2, counter := counter2, ctx := ctx2 }

/-! ## The turn orchestrator (src/v3/engine.ts lines 310 to 771) -/

/-- The active roomie subset of the turn. -/
def activeRoomiesOf (input : RoomTurnInput) : List Roomie :=
  let maxAgents := match input.maxAgents with
    | some n => if n > 0 then n else input.roomies.length
    | none => input.roomies.length
  input.roomies.take (max 1 maxAgents)

/-- The goal-defaulted shared state the turn works on. -/
def sharedAtStart (deps : RoomEngineDeps) (input : RoomTurnInput) : SharedState :=
  let shared0 := deps.loadedState.shared
  match input.chamberGoal with
  | some g => if g ≠ "" ∧ shared0.goal = "" then { shared0 with goal := g } else shared0
  | none => shared0

/-- The event id stem of the turn. -/
def turnIdStem (shared : SharedState) : String := "t" ++ natRepr (shared.turn_index + 1)

/-- The body of the turn after the user-message guard: plan acquisition,
beat loop, the whole-turn fallback event, shared-history append, compaction,
and assembly of the new room state.  On success the returned list holds the
single state passed to saveState, recorded at the point of the call; an
error is a thrown backend exception, which skips the save. -/
def runTurnCore (deps : RoomEngineDeps) (input : RoomTurnInput)
    (userMessage : String) :
    Except String (RoomTurnResult × List RoomState × TurnCtx) :=
  let state := deps.loadedState
  let shared := sharedAtStart deps input
  let activeRoomies := activeRoomiesOf input
  if activeRoomies.isEmpty then .error "At least one roomie is required for v3"
  else
    let _roomieModels := resolveRoomieModels deps input
    let idStem := turnIdStem shared
    match acquireDirectorPlan deps input activeRoomies shared.turn_index
      { genCount := 0, timeCount := 0 } with
    | .error e => .error e
    | .ok (directorPlan, ctx1) =>
      let st0 : BeatLoopSt :=
        { emit := { allEvents := [], dedupeKeys := [], actionUsed := 0, thoughtUsed := 0 }
          memory := cloneAgentMemory shared.agent_memory
          counter := 0
          ctx := ctx1 }
      match runBeatsLoop deps input idStem directorPlan.beats st0 with
      | .error e => .error e
      | .ok st1 =>
        let allEvents :=
          if st1.emit.allEvents.isEmpty then
            match activeRoomies.head? with
            | some fallbackRoomie =>
              [buildFallbackSpeakEvent fallbackRoomie.name
                "I need one more beat to continue, but here is my take now."
                (mkBeatId shared.turn_index 1)
                (createEventId idStem (st1.counter + 1)) (some .director)]
            | none => []
          else st1.emit.allEvents
        let userEntry : SharedMessage :=
          { role := .user, agent_id := none, text := userMessage, turn_index := shared.turn_index }
        let agentEntries := (allEvents.filter (fun e => e.type ≠ .thought)).map (fun e =>
          ({ role := .agent
             agent_id := (directorPlan.beats.find? (fun b => b.beatId = e.beatId)).map (fun b => b.agentId)
             text := eventToHistoryLine e
             turn_index := shared.turn_index } : SharedMessage))
        let sharedWithMessages : SharedState :=
          { shared with
            last_messages := shared.last_messages ++ userEntry :: agentEntries
            agent_memory := st1.memory }
        let compactEveryChars := match input.compactEveryChars with
          | some n => if n > 0 then n else 12000
          | none => 12000
        let compactKeepMessages := match input.compactKeepMessages with
          | some n => n
          | none => 5
        let shouldCompact :=
          compactEveryChars > 0 && estimateSharedChars sharedWithMessages ≥ compactEveryChars
        let summarized : Except String (SharedState × TurnCtx) :=
          if shouldCompact ∧ input.summarizerModel.isSome then
            match callGenerate deps st1.ctx with
            | .error e => .error e
            | .ok (sumRaw, ctx2) =>
              let summaryWindow :=
                if compact sumRaw ≠ "" then compact sumRaw
                else sharedWithMessages.summary_window
              .ok ({ sharedWithMessages with
                     summary_window := summaryWindow
                     last_messages := trimMessages sharedWithMessages.last_messages compactKeepMessages },
                   ctx2)
          else .ok (sharedWithMessages, st1.ctx)
        match summarized with
        | .error e => .error e
        | .ok (summarizedShared, ctxF) =>
          let nextShared := { summarizedShared with turn_index := shared.turn_index + 1 }
          let nextState : RoomState :=
            { shared := nextShared
              runtime :=
                { turn_index := nextShared.turn_index
                  speaker_plan := directorPlan.beats.map (fun b =>
                    { agent_id := b.agentId, intent := b.intent })
                  speaker_outputs := buildSpeakerOutputs allEvents directorPlan.beats
                  last_user_message := some userMessage
                  turn_trace :=
                    ["contract:v" ++ natRepr THEATRICAL_CONTRACT_VERSION,
                     "director:attempts:" ++ natRepr directorPlan.trace.attempts,
                     "events:" ++ natRepr allEvents.length]
                  director_plan_history := takeRight 10 (state.runtime.director_plan_history ++ [directorPlan])
                  theatrical_contract_version := some THEATRICAL_CONTRACT_VERSION } }
          .ok ({ outputText := toNdjson allEvents
                 events := allEvents
                 directorPlan := directorPlan
                 state := nextState },
               [nextState], ctxF)

/-- runRoomTurnTheatricalV3 from src/v3/engine.ts.  The first component is
the turn outcome (an error is the exception propagated to the caller), the
second the list of states passed to saveState during the turn. -/
def runRoomTurnTheatricalV3 (deps : RoomEngineDeps) (input : RoomTurnInput) :
    (Except String RoomTurnResult) × List RoomState :=
  let userMessage := compact input.userMessage
  if userMessage = "" then (.error "User message is required", [])
  else
    match runTurnCore deps input userMessage with
    | .error e => (.error e, [])
    | .ok (result, savedStates, _ctx) => (.ok result, savedStates)

/-! ## Basic facts about the string utilities -/

theorem trimChars_length_le (l : List Char) : (trimChars l).length ≤ l.length := by
  unfold trimChars
  calc (((l.dropWhile isJsWs).reverse.dropWhile isJsWs).reverse).length
      = ((l.dropWhile isJsWs).reverse.dropWhile isJsWs).length := by
        exact List.length_reverse _
    _ ≤ (l.dropWhile isJsWs).reverse.length := (List.dropWhile_sublist _).length_le
    _ = (l.dropWhile isJsWs).length := List.length_reverse _
    _ ≤ l.length := (List.dropWhile_sublist _).length_le

theorem jsTrim_length_le (s : String) : (jsTrim s).length ≤ s.length :=
  trimChars_length_le s.data

theorem strTake_length_le (s : String) (n : Nat) : (strTake s n).length ≤ n := by
  show (s.data.take n).length ≤ n
  rw [List.length_take]
  exact Nat.min_le_left n _

/-! ## Budget-cap invariants of the event model -/

/-- The number of events of one kind in a list. -/
def countType (t : EventType) (l : List TheatricalEvent) : Nat :=
  (l.filter (fun e => e.type = t)).length

theorem countType_nil (t : EventType) : countType t [] = 0 := rfl

theorem countType_cons (t : EventType) (e : TheatricalEvent) (l : List TheatricalEvent) :
    countType t (e :: l) =
      (if e.type = t then countType t l + 1 else countType t l) := by
  by_cases h : e.type = t <;> simp [countType, List.filter_cons, h]

theorem applyBudgetCapsLoop_action_count (b : TheatricalBudget) :
    ∀ (l : List TheatricalEvent) (a t : Nat),
      countType .action (applyBudgetCapsLoop b l a t) ≤
        max 0 b.maxActionEventsPerTurn - a := by
  intro l
  induction l with
  | nil => intro a t; simp [applyBudgetCapsLoop, countType]
  | cons e rest ih =>
    intro a t
    rcases he : e.type with _ | _ | _
    · -- speak head
      simp only [applyBudgetCapsLoop, he, countType_cons]
      simpa [he] using ih a t
    · -- action head
      simp only [applyBudgetCapsLoop, he]
      split
      · exact ih a t
      · rename_i hlt
        have h1 := ih (a + 1) t
        simp only [Nat.zero_max] at h1 hlt
        simp [countType_cons, he]
        omega
    · -- thought head
      simp only [applyBudgetCapsLoop, he]
      split
      · exact ih a t
      · split
        · split
          · exact ih a (t + 1)
          · simpa [countType_cons] using ih a (t + 1)
        · split
          · exact ih a (t + 1)
          · simpa [countType_cons] using ih a (t + 1)

theorem applyBudgetCapsLoop_thought_count (b : TheatricalBudget) :
    ∀ (l : List TheatricalEvent) (a t : Nat),
      countType .thought (applyBudgetCapsLoop b l a t) ≤
        max 0 b.maxThoughtEventsPerTurn - t := by
  intro l
  induction l with
  | nil => intro a t; simp [applyBudgetCapsLoop, countType]
  | cons e rest ih =>
    intro a t
    rcases he : e.type with _ | _ | _
    · simp only [applyBudgetCapsLoop, he, countType_cons]
      simpa [he] using ih a t
    · simp only [applyBudgetCapsLoop, he]
      split
      · exact ih a t
      · simp only [countType_cons]
        simpa [he] using ih (a + 1) t
    · simp only [applyBudgetCapsLoop, he]
      split
      · exact ih a t
      · rename_i hts
        have hrec := ih a (t + 1)
        simp only [Nat.zero_max] at hts hrec
        split
        · split
          · simp only [Nat.zero_max]
            omega
          · simp [countType_cons, Nat.zero_max]
            omega
        · split
          · simp only [Nat.zero_max]
            omega
          · simp [countType_cons, Nat.zero_max]
            omega

theorem applyBudgetCapsLoop_thought_len (b : TheatricalBudget) :
    ∀ (l : List TheatricalEvent) (a t : Nat) (e : TheatricalEvent),
      e ∈ applyBudgetCapsLoop b l a t → e.type = .thought →
        e.content.length ≤ max 1 b.maxThoughtCharsPerEvent := by
  intro l
  induction l with
  | nil => intro a t e he; simp [applyBudgetCapsLoop] at he
  | cons x rest ih =>
    intro a t e hmem hty
    rcases hx : x.type with _ | _ | _
    · -- speak head
      simp only [applyBudgetCapsLoop, hx] at hmem
      rcases List.mem_cons.1 hmem with h | h
      · subst h; rw [hx] at hty; cases hty
      · exact ih a t e h hty
    · -- action head
      simp only [applyBudgetCapsLoop, hx] at hmem
      split at hmem
      · exact ih a t e hmem hty
      · rcases List.mem_cons.1 hmem with h | h
        · subst h; rw [hx] at hty; cases hty
        · exact ih (a + 1) t e h hty
    · -- thought head
      simp only [applyBudgetCapsLoop, hx] at hmem
      split at hmem
      · exact ih a t e hmem hty
      · split at hmem
        · -- over-long content, clipped
          split at hmem
          · exact ih a (t + 1) e hmem hty
          · rcases List.mem_cons.1 hmem with h | h
            · subst h
              exact le_trans (jsTrim_length_le _) (strTake_length_le _ _)
            · exact ih a (t + 1) e h hty
        · -- content within the cap
          rename_i hlen
          split at hmem
          · exact ih a (t + 1) e hmem hty
          · rcases List.mem_cons.1 hmem with h | h
            · subst h
              show x.content.length ≤ max 1 b.maxThoughtCharsPerEvent
              omega
            · exact ih a (t + 1) e h hty

/-! ## C9: dedupe is idempotent -/

theorem dedupeLoop_idem (l : List TheatricalEvent) :
    ∀ seen, dedupeLoop seen (dedupeLoop seen l) = dedupeLoop seen l := by
  induction l with
  | nil => intro seen; rfl
  | cons e rest ih =>
    intro seen
    by_cases hs : e.type = .speak
    · simp [dedupeLoop, hs, ih]
    · by_cases hk : dedupeKey e ∈ seen
      · simp [dedupeLoop, hs, hk, ih]
      · simp [dedupeLoop, hs, hk, ih]

/-- C9: dedupe is idempotent: applying dedupeSimilarEvents twice yields the
same list as applying it once; the dedupe removes exact duplicate action and
thought events by the case-insensitive author, type, content key and never
removes speak events (the latter facts are the shape of dedupeLoop). -/
theorem dedupe_idempotent (events : List TheatricalEvent) :
    dedupeSimilarEvents (dedupeSimilarEvents events) = dedupeSimilarEvents events :=
  dedupeLoop_idem events []

/-! ## C4 and C5: budget caps -/

/-- A sample action event for the budget-cap counterexamples. -/
def sampleActionEvent : TheatricalEvent :=
  { type := .action, author := "Ada", content := "waves", eventId := "e1",
    beatId := "b1", schemaVersion := 1, visibility := .pub, intensity := 3,
    origin := .roomie }

/-- A budget with every cap field at zero. -/
def zeroCapBudget : TheatricalBudget :=
  { maxDirectorAttempts := 1, maxActionEventsPerTurn := 0,
    maxThoughtEventsPerTurn := 0, maxThoughtCharsPerEvent := 0,
    targetP95TurnLatencyMs := 0 }

/-- C4 counterexample: with maxActionEventsPerTurn = 0 the action event is
not returned, although dedupe keeps it, so zero does not disable the cap:
it enforces it at zero. -/
theorem c4_zero_cap_counterexample :
    dedupeSimilarEvents [sampleActionEvent] = [sampleActionEvent] ∧
    applyBudgetCaps [sampleActionEvent] zeroCapBudget = [] := by
  constructor <;> rfl

/-- C4 amended: a zero cap is fully enforced, not disabled: with
maxActionEventsPerTurn = 0 no action event is returned and with
maxThoughtEventsPerTurn = 0 no thought event is returned, by applyBudgetCaps
and by the orchestrator's emitEventIfAllowed alike; with
maxThoughtCharsPerEvent = 0 thought content is truncated to the floor of one
character, not left unrestricted. -/
theorem c4_zero_caps_enforced (events : List TheatricalEvent) (b : TheatricalBudget) :
    (b.maxActionEventsPerTurn = 0 → countType .action (applyBudgetCaps events b) = 0) ∧
    (b.maxThoughtEventsPerTurn = 0 → countType .thought (applyBudgetCaps events b) = 0) ∧
    (b.maxThoughtCharsPerEvent = 0 →
      ∀ e ∈ applyBudgetCaps events b, e.type = .thought → e.content.length ≤ 1) ∧
    (∀ (st : EmitState) (e : TheatricalEvent), b.maxActionEventsPerTurn = 0 →
      e.type = .action → emitEventIfAllowed b st e = st) ∧
    (∀ (st : EmitState) (e : TheatricalEvent), b.maxThoughtEventsPerTurn = 0 →
      e.type = .thought → emitEventIfAllowed b st e = st) := by
  refine ⟨?_, ?_, ?_, ?_, ?_⟩
  · intro h0
    have h1 := applyBudgetCapsLoop_action_count b (dedupeSimilarEvents events) 0 0
    rw [h0] at h1
    simpa [applyBudgetCaps] using h1
  · intro h0
    have h1 := applyBudgetCapsLoop_thought_count b (dedupeSimilarEvents events) 0 0
    rw [h0] at h1
    simpa [applyBudgetCaps] using h1
  · intro h0 e hmem hty
    have h1 := applyBudgetCapsLoop_thought_len b (dedupeSimilarEvents events) 0 0 e hmem hty
    rw [h0] at h1
    simpa using h1
  · intro st e h0 hty
    simp [emitEventIfAllowed, hty, h0]
  · intro st e h0 hty
    simp [emitEventIfAllowed, hty, h0]

/-- C4 witness: the amended statement applied at the sample input. -/
theorem c4_zero_caps_witness :
    countType .action (applyBudgetCaps [sampleActionEvent] zeroCapBudget) = 0 :=
  (c4_zero_caps_enforced [sampleActionEvent] zeroCapBudget).1 rfl

/-- A thought event of two characters. -/
def sampleThoughtEvent : TheatricalEvent :=
  { type := .thought, author := "Ada", content := "ab", eventId := "e2",
    beatId := "b1", schemaVersion := 1, visibility := .priv, intensity := 3,
    origin := .roomie }

/-- A budget whose thought character cap is zero but that admits a thought. -/
def zeroCharBudget : TheatricalBudget :=
  { maxDirectorAttempts := 1, maxActionEventsPerTurn := 0,
    maxThoughtEventsPerTurn := 1, maxThoughtCharsPerEvent := 0,
    targetP95TurnLatencyMs := 0 }

/-- C5 counterexample: with maxThoughtCharsPerEvent = 0 the surviving
truncated thought has content of length one, which exceeds the cap, so the
content-length clause of the claim fails at the zero cap. -/
theorem c5_cap_counterexample :
    applyBudgetCaps [sampleThoughtEvent] zeroCharBudget =
      [{ sampleThoughtEvent with content := "a" }] ∧
    ¬(∀ e ∈ applyBudgetCaps [sampleThoughtEvent] zeroCharBudget,
        e.type = .thought →
          e.content.length ≤ zeroCharBudget.maxThoughtCharsPerEvent) := by
  constructor
  · rfl
  · intro h
    have := h { sampleThoughtEvent with content := "a" } (by rw [show applyBudgetCaps [sampleThoughtEvent] zeroCharBudget = [{ sampleThoughtEvent with content := "a" }] from rfl]; exact List.mem_singleton.2 rfl) rfl
    simp only [zeroCharBudget, Nat.le_zero] at this
    exact absurd this (by decide)

/-- C5 amended: applyBudgetCaps returns at most maxActionEventsPerTurn
action events and at most maxThoughtEventsPerTurn thought events, and every
thought event in its output has content length at most
max 1 maxThoughtCharsPerEvent — hence at most maxThoughtCharsPerEvent
whenever that cap is at least one (a zero cap truncates to one character
rather than disabling or zeroing the bound). -/
theorem c5_caps_bound (events : List TheatricalEvent) (b : TheatricalBudget) :
    countType .action (applyBudgetCaps events b) ≤ b.maxActionEventsPerTurn ∧
    countType .thought (applyBudgetCaps events b) ≤ b.maxThoughtEventsPerTurn ∧
    (∀ e ∈ applyBudgetCaps events b, e.type = .thought →
      e.content.length ≤ max 1 b.maxThoughtCharsPerEvent) := by
  refine ⟨?_, ?_, ?_⟩
  · have h1 := applyBudgetCapsLoop_action_count b (dedupeSimilarEvents events) 0 0
    simpa [applyBudgetCaps] using h1
  · have h1 := applyBudgetCapsLoop_thought_count b (dedupeSimilarEvents events) 0 0
    simpa [applyBudgetCaps] using h1
  · intro e hmem hty
    exact applyBudgetCapsLoop_thought_len b (dedupeSimilarEvents events) 0 0 e hmem hty

/-- C5 witness: the amended statement applied at a concrete input whose
thought survives truncated. -/
theorem c5_caps_witness :
    ({ sampleThoughtEvent with content := "a" } : TheatricalEvent).content.length ≤
      max 1 zeroCharBudget.maxThoughtCharsPerEvent :=
  (c5_caps_bound [sampleThoughtEvent] zeroCharBudget).2.2
    { sampleThoughtEvent with content := "a" }
    (by rw [show applyBudgetCaps [sampleThoughtEvent] zeroCharBudget =
        [{ sampleThoughtEvent with content := "a" }] from rfl]
        exact List.mem_singleton.2 rfl)
    rfl

/-! ## C2: the no-speak fallback of a beat -/

/-- C2: whenever the permission-filtered, truncated parse output of a beat
contains no speak event (in particular when parsing itself failed), the
beat's final accepted list is exactly one synthesized speak event built by
buildFallbackSpeakEvent from the first non-empty line of the raw generation
output truncated to 360 characters (extractFallbackText), tagged origin
roomie when parsing succeeded and repair when it failed. -/
theorem c2_no_speak_fallback (roomie : Roomie) (beat : DirectorBeat)
    (parsed : Except String (List TheatricalEvent)) (raw idStem : String)
    (counter : Nat)
    (hns : ∀ e ∈ beatParsedAccepted roomie beat parsed, e.type ≠ .speak) :
    beatAccepted roomie beat parsed raw idStem counter =
      ([buildFallbackSpeakEvent roomie.name (extractFallbackText raw) beat.beatId
          (createEventId idStem (counter + 1))
          (some (beatFallbackOrigin parsed))],
       counter + 1) := by
  have hany : (beatParsedAccepted roomie beat parsed).any
      (fun e => e.type = .speak) = false := by
    simp only [List.any_eq_false, decide_eq_true_eq]
    intro e he
    exact hns e he
  simp [beatAccepted, hany]

/-- C2 sample data: a beat that refuses actions, whose parse output is one
action event. -/
def c2Roomie : Roomie := { id := "r1", name := "Ada", bio := "b", traits := none }

def c2Beat : DirectorBeat :=
  { beatId := "b1-1", agentId := "r1", intent := "respond-helpfully",
    allowAction := false, allowThought := false, toneHint := "balanced",
    maxEvents := 2 }

/-- C2 witness: the theorem applied at a beat whose only parsed event is an
action while allowAction is false. -/
theorem c2_no_speak_fallback_witness :
    beatAccepted c2Roomie c2Beat (.ok [sampleActionEvent]) "I wave." "t1" 0 =
      ([buildFallbackSpeakEvent "Ada" (extractFallbackText "I wave.") "b1-1"
          (createEventId "t1" 1)
          (some (beatFallbackOrigin (.ok [sampleActionEvent])))], 1) :=
  c2_no_speak_fallback c2Roomie c2Beat (.ok [sampleActionEvent]) "I wave." "t1" 0
    (by decide)

/-! ## C10: author and beatId stamping -/

theorem acceptBeatEvents_stamped (rn bid : String) (aA aT : Bool) (mE : Nat) :
    ∀ (l : List TheatricalEvent) (count : Nat) (e : TheatricalEvent),
      e ∈ acceptBeatEvents rn bid aA aT mE count l →
        e.author = rn ∧ e.beatId = bid := by
  intro l
  induction l with
  | nil => intro count e h; simp [acceptBeatEvents] at h
  | cons x rest ih =>
    intro count e h
    simp only [acceptBeatEvents] at h
    split at h
    · exact ih count e h
    · split at h
      · exact ih count e h
      · split at h
        · have h1 := List.mem_singleton.1 h
          subst h1
          exact ⟨rfl, rfl⟩
        · rcases List.mem_cons.1 h with h1 | h1
          · subst h1
            exact ⟨rfl, rfl⟩
          · exact ih (count + 1) e h1

/-- C10: every event a beat finally accepts, the synthesized fallback speak
event included, carries the beat's roomie name as author and the beat's
beatId, whatever author and beatId the generation output carried. -/
theorem c10_stamping (roomie : Roomie) (beat : DirectorBeat)
    (parsed : Except String (List TheatricalEvent)) (raw idStem : String)
    (counter : Nat) :
    ∀ e ∈ (beatAccepted roomie beat parsed raw idStem counter).1,
      e.author = roomie.name ∧ e.beatId = beat.beatId := by
  intro e he
  unfold beatAccepted at he
  dsimp only at he
  split at he
  · simp only [List.mem_singleton] at he
    subst he
    exact ⟨rfl, rfl⟩
  · cases parsed with
    | error err => simp [beatParsedAccepted] at he
    | ok evs =>
      exact acceptBeatEvents_stamped roomie.name beat.beatId _ _ _ evs 0 e he

/-- C10 witness: the stamping theorem applied at a failed parse, whose
fallback event carries the roomie name and beatId. -/
theorem c10_stamping_witness :
    (buildFallbackSpeakEvent "Ada" (extractFallbackText "raw text") "b1-1"
        (createEventId "t9" 6) (some Origin.repair)).author = "Ada" ∧
    (buildFallbackSpeakEvent "Ada" (extractFallbackText "raw text") "b1-1"
        (createEventId "t9" 6) (some Origin.repair)).beatId = "b1-1" :=
  c10_stamping c2Roomie c2Beat (.error "empty-output") "raw text" "t9" 5
    (buildFallbackSpeakEvent "Ada" (extractFallbackText "raw text") "b1-1"
      (createEventId "t9" 6) (some Origin.repair))
    (by rw [show (beatAccepted c2Roomie c2Beat (.error "empty-output") "raw text" "t9" 5).1 =
          [buildFallbackSpeakEvent "Ada" (extractFallbackText "raw text") "b1-1"
            (createEventId "t9" 6) (some Origin.repair)] from rfl]
        exact List.mem_singleton.2 rfl)

/-! ## C6: generated event ids -/

theorem decDigitChar_toNat (d : Nat) (h : d < 10) : (decDigitChar d).toNat - 48 = d := by
  interval_cases d <;> rfl

theorem digitsToNat_append_one (l : List Char) (c : Char) :
    digitsToNat (l ++ [c]) = digitsToNat l * 10 + (c.toNat - 48) := by
  simp [digitsToNat, List.foldl_append]

theorem digitsToNat_natDigitsAux :
    ∀ (fuel n : Nat), n < fuel → digitsToNat (natDigitsAux fuel n) = n := by
  intro fuel
  induction fuel with
  | zero => intro n h; omega
  | succ fuel ih =>
    intro n h
    unfold natDigitsAux
    split
    · rename_i h10
      simpa [digitsToNat] using decDigitChar_toNat n h10
    · rename_i h10
      rw [digitsToNat_append_one,
        ih (n / 10) (by omega),
        decDigitChar_toNat (n % 10) (Nat.mod_lt n (by omega))]
      omega

theorem digitsToNat_natDigits (n : Nat) : digitsToNat (natDigits n) = n :=
  digitsToNat_natDigitsAux (n + 1) n (Nat.lt_succ_self n)

theorem natDigits_injective {m n : Nat} (h : natDigits m = natDigits n) : m = n := by
  have h2 := congrArg digitsToNat h
  rwa [digitsToNat_natDigits, digitsToNat_natDigits] at h2

theorem natRepr_injective {m n : Nat} (h : natRepr m = natRepr n) : m = n :=
  natDigits_injective (congrArg String.data h)

/-- The factory counter of the line validator never moves backwards. -/
theorem lineEventId_counter_le (idStem : String) (c : Nat) (j : Json) :
    c ≤ (lineEventId idStem c j).2 := by
  unfold lineEventId
  repeat' split
  all_goals simp

theorem validateNdjsonLine_counter_le (dA dB : String) (oh : Option Origin)
    (idStem : String) (c : Nat) (line : String) (e : TheatricalEvent) (c2 : Nat)
    (h : validateNdjsonLine dA dB oh idStem c line = .ok (e, c2)) : c ≤ c2 := by
  unfold validateNdjsonLine at h
  repeat' split at h
  all_goals simp_all
  all_goals (obtain ⟨he, hc⟩ := h; subst hc; exact lineEventId_counter_le idStem c _)

theorem parseNdjsonLoop_counter_le (dA dB : String) (oh : Option Origin)
    (idStem : String) :
    ∀ (lines : List String) (c : Nat) (acc : List TheatricalEvent),
      c ≤ (parseNdjsonLoop dA dB oh idStem lines c acc).2 := by
  intro lines
  induction lines with
  | nil => intro c acc; simp only [parseNdjsonLoop]; split <;> simp
  | cons line rest ih =>
    intro c acc
    simp only [parseNdjsonLoop]
    split
    · simp
    · rename_i e2 c2 heq
      exact le_trans (validateNdjsonLine_counter_le dA dB oh idStem c line e2 c2 heq)
        (ih c2 _)

theorem parseNdjson_counter_le (raw dA dB : String) (oh : Option Origin)
    (idStem : String) (c : Nat) :
    c ≤ (parseNdjsonTheatricalEvents raw dA dB oh idStem c).2 := by
  unfold parseNdjsonTheatricalEvents
  split
  · simp
  · dsimp only
    split
    · simp
    · exact parseNdjsonLoop_counter_le dA dB oh idStem _ c []

/-- C6 amended: eventIds generated by the per-turn factory are pairwise
distinct — the factory stringifies a strictly increasing counter and the
id map is injective for a fixed stem — and the counter the validator threads
never decreases, so ids generated later in the turn are fresh.  Supplied
eventIds, by contrast, pass through unchecked (see the counterexample). -/
theorem c6_generated_ids :
    (∀ (idStem : String) (i j : Nat), i ≠ j →
      createEventId idStem i ≠ createEventId idStem j) ∧
    (∀ (raw dA dB : String) (oh : Option Origin) (idStem : String) (c : Nat),
      c ≤ (parseNdjsonTheatricalEvents raw dA dB oh idStem c).2) := by
  constructor
  · intro idStem i j hne heq
    apply hne
    have h2 := congrArg String.data heq
    simp only [createEventId, String.data_append] at h2
    exact natRepr_injective (congrArg String.mk (List.append_cancel_left h2))
  · intro raw dA dB oh idStem c
    exact parseNdjson_counter_le raw dA dB oh idStem c

/-- C6 witness: two distinct counters give distinct ids; the counter of a
concrete parse does not decrease. -/
theorem c6_generated_ids_witness :
    createEventId "t1" 1 ≠ createEventId "t1" 2 ∧
    3 ≤ (parseNdjsonTheatricalEvents "" "Ada" "b1-1" none "t1" 3).2 :=
  ⟨c6_generated_ids.1 "t1" 1 2 (by decide),
   c6_generated_ids.2 "" "Ada" "b1-1" none "t1" 3⟩

/-- The C6 counterexample scenario: a one-roomie room, a valid director plan
that allows two events in the single beat, and a speaker output of two speak
lines both carrying the supplied eventId x. -/
def c6Roomie : Roomie := { id := "r1", name := "Ada", bio := "b", traits := none }

def c6LoadedState : RoomState :=
  { shared := { goal := "", summary_window := "", last_messages := [],
                agent_memory := [], turn_index := 0 }
    runtime := { turn_index := 0, speaker_plan := [], speaker_outputs := [],
                 last_user_message := none, turn_trace := [],
                 director_plan_history := [], theatrical_contract_version := none } }

def c6Budget : TheatricalBudget :=
  { maxDirectorAttempts := 1, maxActionEventsPerTurn := 2,
    maxThoughtEventsPerTurn := 2, maxThoughtCharsPerEvent := 100,
    targetP95TurnLatencyMs := 0 }

def c6Input : RoomTurnInput :=
  { chamberId := "c", userId := "u", userName := "U", userTier := "BASE",
    userMessage := "hi", chamberGoal := none, roomies := [c6Roomie],
    defaultAgentModel := "m", directorModel := "d", summarizerModel := none,
    budget := c6Budget, presetId := "p", presetPrompt := "pp",
    maxAgents := none, compactEveryChars := none, compactKeepMessages := none }

def c6Deps : RoomEngineDeps :=
  { loadedState := c6LoadedState
    generateText := fun n =>
      if n = 0 then .ok "\x7b\"beats\":[\x7b\"agent_id\":\"r1\",\"max_events\":2\x7d]\x7d"
      else .ok ("\x7b\"type\":\"speak\",\"content\":\"a\",\"eventId\":\"x\"\x7d\n" ++
        "\x7b\"type\":\"speak\",\"content\":\"b\",\"eventId\":\"x\"\x7d")
    elapsedMs := fun _ => 0
    modelAssignment := none }

/-- C6 counterexample: a successful turn whose accepted event list carries
two events with the same eventId x, both taken verbatim from the generation
output, so eventIds are not pairwise distinct within the turn. -/
theorem c6_duplicate_counterexample :
    ((runRoomTurnTheatricalV3 c6Deps c6Input).1.map
      (fun r => r.events.map (fun e => e.eventId))) = .ok ["x", "x"] ∧
    ¬(["x", "x"] : List String).Nodup :=
  ⟨rfl, by decide⟩

/-! ## C1: at-most-once turn application -/

/-- The turn body saves exactly its returned state: whatever the oracles do,
a successful core run records exactly one saveState call, whose argument is
the state field of the returned result. -/
theorem runTurnCore_saves (deps : RoomEngineDeps) (input : RoomTurnInput)
    (um : String) (out : RoomTurnResult × List RoomState × TurnCtx)
    (h : runTurnCore deps input um = .ok out) : out.2.1 = [out.1.state] := by
  unfold runTurnCore at h
  dsimp only at h
  repeat' split at h
  all_goals first
    | exact Except.noConfusion h
    | (rw [Except.ok.injEq] at h; subst h; rfl)

/-- C1: the turn writes the state store exactly once, at the very end, with
the complete new state it also returns; when any generation call throws, the
exception propagates as the error outcome and the store is never written, so
the previously persisted state is untouched (at-most-once application). -/
theorem c1_single_save (deps : RoomEngineDeps) (input : RoomTurnInput) :
    (runRoomTurnTheatricalV3 deps input).2 =
      match (runRoomTurnTheatricalV3 deps input).1 with
      | .ok r => [r.state]
      | .error _ => [] := by
  by_cases hum : compact input.userMessage = ""
  · simp [runRoomTurnTheatricalV3, hum]
  · rcases hcore : runTurnCore deps input (compact input.userMessage) with e | out
    · simp [runRoomTurnTheatricalV3, hum, hcore]
    · obtain ⟨res, saves, ctx⟩ := out
      have hs := runTurnCore_saves deps input (compact input.userMessage)
        (res, saves, ctx) hcore
      simp only at hs
      simp [runRoomTurnTheatricalV3, hum, hcore, hs]

/-! ## C3: the fallback director plan -/

/-- With the director budget at one attempt and a director response from
which no JSON object is extractable, plan acquisition returns the fallback
plan carrying the director-invalid-json reason, without any further
generation call. -/
theorem acquireDirectorPlan_fallback (deps : RoomEngineDeps)
    (input : RoomTurnInput) (activeRoomies : List Roomie) (turnIndex : Nat)
    (hb : input.budget.maxDirectorAttempts = 1)
    (raw : String) (hgen : deps.generateText 0 = .ok raw)
    (hjson : parseMaybeJsonObject raw = none) :
    acquireDirectorPlan deps input activeRoomies turnIndex
        { genCount := 0, timeCount := 0 } =
      .ok (buildFallbackPlan activeRoomies turnIndex input.presetId
            "director-invalid-json" 1 input.budget,
           { genCount := 1, timeCount := 0 }) := by
  unfold acquireDirectorPlan callGenerate
  simp [hgen, parseDirectorPlanSchema, hjson, hb]

/-- A successful core run returns the plan that plan acquisition produced. -/
theorem runTurnCore_directorPlan (deps : RoomEngineDeps) (input : RoomTurnInput)
    (um : String) (out : RoomTurnResult × List RoomState × TurnCtx)
    (h : runTurnCore deps input um = .ok out) :
    ∃ ctx1, acquireDirectorPlan deps input (activeRoomiesOf input)
        (sharedAtStart deps input).turn_index { genCount := 0, timeCount := 0 } =
      .ok (out.1.directorPlan, ctx1) := by
  unfold runTurnCore at h
  dsimp only at h
  repeat' split at h
  all_goals first
    | exact Except.noConfusion h
    | (rw [Except.ok.injEq] at h; subst h; exact ⟨_, by assumption⟩)

/-- C3: when the director response yields no extractable JSON object and
maxDirectorAttempts is one, so repair is disabled, the turn proceeds and its
result carries a fallback plan: trace source fallback, the last failure
reason director-invalid-json recorded, and exactly one generic beat per
active roomie with both permissions denied. -/
theorem c3_director_fallback (deps : RoomEngineDeps) (input : RoomTurnInput)
    (r : RoomTurnResult)
    (hb : input.budget.maxDirectorAttempts = 1)
    (raw : String) (hgen : deps.generateText 0 = .ok raw)
    (hjson : parseMaybeJsonObject raw = none)
    (hrun : (runRoomTurnTheatricalV3 deps input).1 = .ok r) :
    r.directorPlan.trace.source = PlanSource.fallback ∧
    r.directorPlan.trace.reason = some "director-invalid-json" ∧
    r.directorPlan.beats = (activeRoomiesOf input).enum.map (fun p =>
      { beatId := mkBeatId (sharedAtStart deps input).turn_index (p.1 + 1)
        agentId := p.2.id
        intent := "respond-helpfully"
        allowAction := false
        allowThought := false
        toneHint := "balanced"
        maxEvents := 1 }) := by
  by_cases hum : compact input.userMessage = ""
  · simp [runRoomTurnTheatricalV3, hum] at hrun
  · rcases hcore : runTurnCore deps input (compact input.userMessage) with e | out
    · simp [runRoomTurnTheatricalV3, hum, hcore] at hrun
    · obtain ⟨res, saves, ctx⟩ := out
      simp [runRoomTurnTheatricalV3, hum, hcore] at hrun
      subst hrun
      obtain ⟨ctx1, hacq⟩ :=
        runTurnCore_directorPlan deps input (compact input.userMessage)
          (res, saves, ctx) hcore
      rw [acquireDirectorPlan_fallback deps input (activeRoomiesOf input)
        (sharedAtStart deps input).turn_index hb raw hgen hjson] at hacq
      simp only [Except.ok.injEq, Prod.mk.injEq] at hacq
      obtain ⟨hplan, -⟩ := hacq
      rw [← hplan]
      exact ⟨rfl, rfl, rfl⟩

/-- The C3 witness scenario: one roomie, a director response of plain text,
repair disabled, and a well-formed speaker line. -/
def c3Input : RoomTurnInput :=
  { chamberId := "c", userId := "u", userName := "U", userTier := "BASE",
    userMessage := "hello", chamberGoal := none, roomies := [c6Roomie],
    defaultAgentModel := "m", directorModel := "d", summarizerModel := none,
    budget := c6Budget, presetId := "p", presetPrompt := "pp",
    maxAgents := none, compactEveryChars := none, compactKeepMessages := none }

def c3Deps : RoomEngineDeps :=
  { loadedState := c6LoadedState
    generateText := fun n =>
      if n = 0 then .ok "not json"
      else .ok "\x7b\"type\":\"speak\",\"content\":\"hi there\"\x7d"
    elapsedMs := fun _ => 0
    modelAssignment := none }

def emptyRoomTurnResult : RoomTurnResult :=
  { outputText := "", events := [],
    directorPlan :=
      { contractVersion := 1, schemaVersion := 1, turnIndex := 0, presetId := "",
        budgets := c6Budget, beats := [],
        trace := { source := .model, attempts := 0, reason := none } }
    state := c6LoadedState }

/-- The result of the C3 witness run. -/
def c3RunResult : RoomTurnResult :=
  ((runRoomTurnTheatricalV3 c3Deps c3Input).1).toOption.getD emptyRoomTurnResult

/-- C3 witness: the theorem applied at the concrete scenario. -/
theorem c3_director_fallback_witness :
    c3RunResult.directorPlan.trace.source = PlanSource.fallback ∧
    c3RunResult.directorPlan.trace.reason = some "director-invalid-json" := by
  have h := c3_director_fallback c3Deps c3Input c3RunResult rfl "not json" rfl rfl rfl
  exact ⟨h.1, h.2.1⟩

/-! ## C7: parser defaults on well-formed input -/

theorem lineWellFormed_parse {dA line : String}
    (h : lineWellFormed dA line = true) : ∃ j, jsonParse line = some j := by
  unfold lineWellFormed at h
  rcases hp : jsonParse line with _ | j
  · rw [hp] at h; cases h
  · exact ⟨j, rfl⟩

theorem clamp_bounds (v : Int) : 1 ≤ clamp v 1 5 ∧ clamp v 1 5 ≤ 5 := by
  unfold clamp
  exact ⟨le_max_left _ _, max_le (by norm_num) (min_le_left _ _)⟩

/-- What C7 asserts of the event produced from one line: the author falls
out of the line or the default, and each absent optional field takes its
documented default — visibility by type, origin from the hint, intensity two
for speak and three otherwise, schemaVersion current — with intensity always
clamped into one to five. -/
def lineEventOk (dA : String) (oh : Option Origin) (line : String)
    (e : TheatricalEvent) : Prop :=
  ∀ j, jsonParse line = some j →
    e.author = lineAuthor dA j ∧
    (j.getField "visibility" = none →
      e.visibility = (if e.type = .thought then Visibility.priv else Visibility.pub)) ∧
    (j.getField "origin" = none → e.origin = oh.getD Origin.roomie) ∧
    (j.getField "intensity" = none →
      e.intensity = (if e.type = .speak then 2 else 3)) ∧
    (j.getField "schemaVersion" = none →
      e.schemaVersion = THEATRICAL_EVENT_SCHEMA_VERSION) ∧
    1 ≤ e.intensity ∧ e.intensity ≤ 5

theorem validateNdjsonLine_wf (dA dB : String) (oh : Option Origin)
    (idStem : String) (c : Nat) (line : String)
    (hwf : lineWellFormed dA line = true) :
    ∃ e c2, validateNdjsonLine dA dB oh idStem c line = .ok (e, c2) ∧
      lineEventOk dA oh line e := by
  obtain ⟨j, hp⟩ := lineWellFormed_parse hwf
  unfold lineWellFormed at hwf
  rw [hp] at hwf
  simp only [Bool.and_eq_true, Bool.not_eq_true', beq_eq_false_iff_ne, ne_eq,
    Option.isSome_iff_exists] at hwf
  obtain ⟨⟨⟨hobj, ty, hty⟩, hauthor⟩, hcontent⟩ := hwf
  refine ⟨{ type := ty
            author := lineAuthor dA j
            content := lineContent j
            eventId := (lineEventId idStem c j).1
            beatId := lineBeatId dB j
            schemaVersion := clamp (toSafeInt (j.getField "schemaVersion")
              THEATRICAL_EVENT_SCHEMA_VERSION) 1 1000
            visibility := sanitizeVisibility (j.getField "visibility")
              (if ty = .thought then .priv else .pub)
            intensity := clamp (toSafeInt (j.getField "intensity")
              (if ty = .speak then 2 else 3)) 1 5
            origin := sanitizeOrigin (j.getField "origin") (oh.getD .roomie) },
          (lineEventId idStem c j).2, ?_, ?_⟩
  · unfold validateNdjsonLine
    rw [hp]
    simp only [hobj, Bool.not_true, if_false, hty, if_neg hauthor, if_neg hcontent]
    rfl
  · intro j2 hp2
    rw [hp] at hp2
    obtain rfl : j = j2 := Option.some.injEq _ _ ▸ hp2
    refine ⟨rfl, ?_, ?_, ?_, ?_, ?_⟩
    · intro hnone
      simp only [sanitizeVisibility, hnone]
    · intro hnone
      simp only [sanitizeOrigin, hnone]
    · intro hnone
      simp only [toSafeInt, hnone]
      cases ty <;> simp [clamp]
    · intro hnone
      simp only [toSafeInt, hnone]
      rfl
    · exact clamp_bounds _

theorem parseNdjsonLoop_wf (dA dB : String) (oh : Option Origin) (idStem : String) :
    ∀ (lines : List String) (c : Nat) (acc : List TheatricalEvent),
      (∀ l ∈ lines, lineWellFormed dA l = true) →
      (acc = [] → lines ≠ []) →
      ∃ evs c2, parseNdjsonLoop dA dB oh idStem lines c acc = (.ok (acc ++ evs), c2) ∧
        List.Forall₂ (lineEventOk dA oh) lines evs := by
  intro lines
  induction lines with
  | nil =>
    intro c acc hwf hne
    have hacc : acc ≠ [] := fun h => (hne h) rfl
    refine ⟨[], c, ?_, List.Forall₂.nil⟩
    simp only [parseNdjsonLoop, List.append_nil]
    rw [if_neg (by simpa [List.isEmpty_iff] using hacc)]
  | cons line rest ih =>
    intro c acc hwf hne
    obtain ⟨e, c2, hval, hok⟩ :=
      validateNdjsonLine_wf dA dB oh idStem c line (hwf line (by simp))
    obtain ⟨evs, c3, hloop, hfa⟩ :=
      ih c2 (acc ++ [e]) (fun l hl => hwf l (by simp [hl])) (by simp)
    refine ⟨e :: evs, c3, ?_, List.Forall₂.cons hok hfa⟩
    simp only [parseNdjsonLoop, hval, hloop, List.append_assoc, List.singleton_append]

/-- C7: on raw input with at least one line where every line parses to an
object-like value with a known type, an author completed by the default, and
non-blank content, parseNdjsonTheatricalEvents succeeds with exactly one
event per line, and each event takes the documented defaults for its absent
optional fields (visibility private for thought and public otherwise, origin
from the hint, intensity 2 for speak and 3 otherwise clamped into one to
five, schemaVersion current). -/
theorem c7_parser_defaults (raw dA dB : String) (oh : Option Origin)
    (idStem : String) (c : Nat)
    (hne : ndjsonLines raw ≠ [])
    (hwf : ∀ l ∈ ndjsonLines raw, lineWellFormed dA l = true) :
    ∃ evs c2, parseNdjsonTheatricalEvents raw dA dB oh idStem c = (.ok evs, c2) ∧
      evs.length = (ndjsonLines raw).length ∧
      List.Forall₂ (lineEventOk dA oh) (ndjsonLines raw) evs := by
  have htrim : jsTrim raw ≠ "" := by
    intro h
    apply hne
    unfold ndjsonLines
    rw [h]
    rfl
  obtain ⟨evs, c2, hloop, hfa⟩ :=
    parseNdjsonLoop_wf dA dB oh idStem (ndjsonLines raw) c [] hwf (fun _ => hne)
  refine ⟨evs, c2, ?_, hfa.length_eq.symm, hfa⟩
  unfold parseNdjsonTheatricalEvents
  rw [if_neg htrim]
  dsimp only
  rw [if_neg (by simpa [List.isEmpty_iff] using hne)]
  simpa using hloop

/-- C7 witness: a two-line raw output lacking all optional fields. -/
theorem c7_parser_defaults_witness :
    ∃ evs c2, parseNdjsonTheatricalEvents
        ("\x7b\"type\":\"thought\",\"author\":\"Ada\",\"content\":\"hmm\"\x7d\n" ++
         "\x7b\"type\":\"speak\",\"content\":\"hi\"\x7d")
        "Bob" "b1-1" (some .repair) "t1" 0 = (.ok evs, c2) ∧
      evs.length = (ndjsonLines
        ("\x7b\"type\":\"thought\",\"author\":\"Ada\",\"content\":\"hmm\"\x7d\n" ++
         "\x7b\"type\":\"speak\",\"content\":\"hi\"\x7d")).length ∧
      List.Forall₂ (lineEventOk "Bob" (some .repair))
        (ndjsonLines
          ("\x7b\"type\":\"thought\",\"author\":\"Ada\",\"content\":\"hmm\"\x7d\n" ++
           "\x7b\"type\":\"speak\",\"content\":\"hi\"\x7d")) evs :=
  c7_parser_defaults _ "Bob" "b1-1" (some .repair) "t1" 0 (by decide) (by decide)

/-! ## C8: batch failure on the first offending line -/

/-- A well-formed prefix is consumed without failing: the loop on it reduces
to the loop on the remaining lines at a later counter and accumulator. -/
theorem parseNdjsonLoop_append_wf (dA dB : String) (oh : Option Origin)
    (idStem : String) :
    ∀ (pre : List String) (c : Nat) (acc : List TheatricalEvent) (ls : List String),
      (∀ l ∈ pre, lineWellFormed dA l = true) →
      ∃ acc2 c2, parseNdjsonLoop dA dB oh idStem (pre ++ ls) c acc =
        parseNdjsonLoop dA dB oh idStem ls c2 acc2 := by
  intro pre
  induction pre with
  | nil => intro c acc ls _; exact ⟨acc, c, rfl⟩
  | cons line rest ih =>
    intro c acc ls hwf
    obtain ⟨e, c2, hval, -⟩ :=
      validateNdjsonLine_wf dA dB oh idStem c line (hwf line (by simp))
    obtain ⟨acc2, c3, hloop⟩ :=
      ih c2 (acc ++ [e]) ls (fun l hl => hwf l (by simp [hl]))
    refine ⟨acc2, c3, ?_⟩
    simp only [List.cons_append, parseNdjsonLoop, hval]
    simpa using hloop

theorem ndjsonLines_of_blank {raw : String} (h : jsTrim raw = "") :
    ndjsonLines raw = [] := by
  unfold ndjsonLines
  rw [h]
  rfl

/-- C8 amended: one bad line fails the whole batch with that line's reason,
where the offending line is the first one the validator rejects: a line that
fails to parse yields invalid-json-line, and a line whose author is blank
after normalization yields missing-author only when the call's defaultAuthor
is blank as well (a blank line author alone falls back to the
defaultAuthor). -/
theorem c8_first_bad_line :
    (∀ (raw dA dB : String) (oh : Option Origin) (idStem : String) (c : Nat)
        (pre : List String) (bad : String) (rest : List String),
      ndjsonLines raw = pre ++ bad :: rest →
      (∀ l ∈ pre, lineWellFormed dA l = true) →
      jsonParse bad = none →
      (parseNdjsonTheatricalEvents raw dA dB oh idStem c).1 =
        .error "invalid-json-line") ∧
    (∀ (raw dA dB : String) (oh : Option Origin) (idStem : String) (c : Nat)
        (pre : List String) (bad : String) (rest : List String) (j : Json)
        (ty : EventType),
      ndjsonLines raw = pre ++ bad :: rest →
      (∀ l ∈ pre, lineWellFormed dA l = true) →
      jsonParse bad = some j →
      j.isObjectLike = true →
      sanitizeType (j.getField "type") = some ty →
      lineAuthor dA j = "" →
      (parseNdjsonTheatricalEvents raw dA dB oh idStem c).1 =
        .error "missing-author") := by
  constructor
  · intro raw dA dB oh idStem c pre bad rest hlines hwf hbad
    have htrim : jsTrim raw ≠ "" := by
      intro h
      rw [ndjsonLines_of_blank h] at hlines
      exact List.noConfusion (List.append_eq_nil.1 hlines.symm).2
    unfold parseNdjsonTheatricalEvents
    rw [if_neg htrim]
    dsimp only
    rw [if_neg (by simp [List.isEmpty_iff, hlines])]
    rw [hlines]
    obtain ⟨acc2, c2, hloop⟩ :=
      parseNdjsonLoop_append_wf dA dB oh idStem pre c [] (bad :: rest) hwf
    rw [hloop]
    simp only [parseNdjsonLoop, validateNdjsonLine, hbad]
  · intro raw dA dB oh idStem c pre bad rest j ty hlines hwf hbad hobj hty hauthor
    have htrim : jsTrim raw ≠ "" := by
      intro h
      rw [ndjsonLines_of_blank h] at hlines
      exact List.noConfusion (List.append_eq_nil.1 hlines.symm).2
    unfold parseNdjsonTheatricalEvents
    rw [if_neg htrim]
    dsimp only
    rw [if_neg (by simp [List.isEmpty_iff, hlines])]
    rw [hlines]
    obtain ⟨acc2, c2, hloop⟩ :=
      parseNdjsonLoop_append_wf dA dB oh idStem pre c [] (bad :: rest) hwf
    rw [hloop]
    simp only [parseNdjsonLoop, validateNdjsonLine, hbad, hobj, Bool.not_true,
      if_false, hty, if_pos hauthor]
    rfl

/-- C8 witnesses: an unparseable single line fails with invalid-json-line,
and a line with no author fails with missing-author when the defaultAuthor
is blank too. -/
theorem c8_first_bad_line_witness :
    (parseNdjsonTheatricalEvents "nope" "Bob" "b1-1" (some .roomie) "t1" 0).1 =
      .error "invalid-json-line" ∧
    (parseNdjsonTheatricalEvents "\x7b\"type\":\"speak\",\"content\":\"hi\"\x7d"
        "" "b1-1" (some .roomie) "t1" 0).1 = .error "missing-author" :=
  ⟨c8_first_bad_line.1 "nope" "Bob" "b1-1" (some .roomie) "t1" 0 [] "nope" []
      (by decide) (by simp) rfl,
   c8_first_bad_line.2 "\x7b\"type\":\"speak\",\"content\":\"hi\"\x7d" "" "b1-1"
      (some .roomie) "t1" 0 []
      "\x7b\"type\":\"speak\",\"content\":\"hi\"\x7d" []
      (Json.obj [("type", Json.str "speak"), ("content", Json.str "hi")])
      EventType.speak (by decide) (by simp) rfl rfl rfl rfl⟩

/-- C8 counterexample: a line whose author field is blank after
normalization does not fail the call when the defaultAuthor is usable: the
event is accepted with the default author, so the claim that a blank line
author always yields missing-author is false. -/
theorem c8_blank_author_counterexample :
    (parseNdjsonTheatricalEvents
        "\x7b\"type\":\"speak\",\"author\":\" \",\"content\":\"hi\"\x7d"
        "Bob" "b1-1" (some .roomie) "t1" 0).1 =
      .ok [{ type := .speak, author := "Bob", content := "hi",
             eventId := "t1-1", beatId := "b1-1", schemaVersion := 1,
             visibility := .pub, intensity := 2, origin := .roomie }] ∧
    (parseNdjsonTheatricalEvents
        "\x7b\"type\":\"speak\",\"author\":\" \",\"content\":\"hi\"\x7d"
        "Bob" "b1-1" (some .roomie) "t1" 0).1 ≠ .error "missing-author" := by
  constructor
  · rfl
  · intro h
    rw [show (parseNdjsonTheatricalEvents
        "\x7b\"type\":\"speak\",\"author\":\" \",\"content\":\"hi\"\x7d"
        "Bob" "b1-1" (some .roomie) "t1" 0).1 =
      .ok [{ type := .speak, author := "Bob", content := "hi",
             eventId := "t1-1", beatId := "b1-1", schemaVersion := 1,
             visibility := .pub, intensity := 2, origin := .roomie }] from rfl] at h
    exact Except.noConfusion h

end ChambrV3
